import Mathlib

/-!
Ercole agent (rhel5): the parsers of the `marshal` package, the delivery client and
the startup of the program.

A shallow embedding of `marshal/filesystem.go`, `marshal/host.go`, `marshal/vms.go`
and of `main.go` (`sendData`, `doBuildAndSend`, `program.run`), with the properties of
the specification proved (or refuted) on it.

Conventions of the embedding.

* A Go `string` / `[]byte` holding text is a `List Char` (`GoString`): the command
  output is taken to be valid UTF-8 text, so that a rune is a `Char`.
* `bufio.Scanner` with its default split function (`bufio.ScanLines`) and default
  buffer is `scanLines`: it yields the lines of the input up to, and excluding, the
  first line that does not fit the scanner buffer (`bufio.MaxScanTokenSize`);
  the parsers never look at `scanner.Err()`, so scanning just stops there.
* A run-time panic of the Go code (index out of range, nil dereference) is an
  explicit value of the result type.
* Code of the repository that is not among the sources at hand (helpers of the marshal
  package, the scheduler) is either a parameter or a definition marked
  `Modelled from the spec`.
-/

set_option linter.dupNamespace false

namespace Ercole

/-- A Go string holding text, as its sequence of runes. -/
abbrev GoString := List Char

/-! ## Go standard library: `unicode`, `strings`, `bufio` -/

/-- The predicate `unicode.IsSpace`: the White_Space runes of Unicode. -/
def isSpace (c : Char) : Bool :=
  let n := c.toNat
  n == 0x09 || n == 0x0A || n == 0x0B || n == 0x0C || n == 0x0D || n == 0x20 ||
  n == 0x85 || n == 0xA0 || n == 0x1680 || (0x2000 ≤ n && n ≤ 0x200A) ||
  n == 0x2028 || n == 0x2029 || n == 0x202F || n == 0x205F || n == 0x3000

/-- The function `strings.TrimSpace`: leading and trailing white space removed. -/
def TrimSpace (s : GoString) : GoString :=
  ((s.dropWhile isSpace).reverse.dropWhile isSpace).reverse

/-- The scan of `strings.Fields`: `cur` is the field being read, most recent rune first. -/
def fieldsFrom : GoString → GoString → List GoString
  | cur, [] => if cur.isEmpty then [] else [cur.reverse]
  | cur, c :: cs =>
    if isSpace c then
      if cur.isEmpty then fieldsFrom [] cs else cur.reverse :: fieldsFrom [] cs
    else fieldsFrom (c :: cur) cs

/-- The function `strings.Fields`: the maximal runs of non-space runes, in order. -/
def Fields (s : GoString) : List GoString := fieldsFrom [] s

/-- The function `strings.Split` for a one-rune separator: the pieces between the
separators; there is always at least one piece. -/
def Split : GoString → Char → List GoString
  | [], _ => [[]]
  | c :: cs, sep =>
    if c = sep then [] :: Split cs sep
    else
      match Split cs sep with
      | [] => [[c]]
      | p :: ps => (c :: p) :: ps

/-- The lines that `bufio.ScanLines` cuts the input into, before the end-of-line
marker is stripped: the text between newlines, with no empty last line. -/
def rawLines : GoString → List GoString
  | [] => []
  | c :: cs =>
    if c = '\n' then [] :: rawLines cs
    else
      match rawLines cs with
      | [] => [[c]]
      | l :: ls => (c :: l) :: ls

/-- The length in bytes of the UTF-8 encoding of a rune. -/
def runeLen (c : Char) : Nat :=
  if c.toNat < 0x80 then 1 else if c.toNat < 0x800 then 2 else if c.toNat < 0x10000 then 3 else 4

/-- The length in bytes of a Go string. -/
def byteLen (s : GoString) : Nat := (s.map runeLen).sum

/-- The constant `bufio.MaxScanTokenSize`, the size limit of the scanner buffer. -/
def MaxScanTokenSize : Nat := 64 * 1024

/-- The function `dropCR` of `bufio`: one trailing carriage return removed. -/
def dropCR (l : GoString) : GoString :=
  if l.getLast? = some '\r' then l.dropLast else l

/-- A line fits the scanner buffer when it is shorter than `MaxScanTokenSize` bytes. -/
def fitsBuffer (l : GoString) : Bool := decide (byteLen l < MaxScanTokenSize)

/-- The loop `for scanner.Scan() { line := scanner.Text() ... }` over
`bufio.NewScanner(strings.NewReader(s))`: the successive values of `line`. `Scan`
returns false at the end of the input and at the first line that does not fit the
buffer (the error `bufio.ErrTooLong`, which the callers never read). -/
def scanLines (s : GoString) : List GoString :=
  ((rawLines s).takeWhile fitsBuffer).map dropCR

/-! ## `marshal/filesystem.go` -/

/-- The record `model.Filesystem`, with the fields that `Filesystems` assigns
(`FsType` is the Go field `Type`). -/
structure model.Filesystem where
  Filesystem : GoString
  FsType : GoString
  Size : Int
  UsedSpace : Int
  AvailableSpace : Int
  MountedOn : GoString
  deriving DecidableEq, Repr

/-- The conversion error of a numeric column; it names the offending token. -/
structure ConvError where
  token : GoString
  deriving DecidableEq, Repr

/-- Modelled from the spec: the cursor `NewIter` of the marshal package, whose code is
not among the sources at hand. It walks a token list in order, advancing one token at a
time. The spec does not say what a read past the last token gives: `next` is `none`
there. -/
structure Iter where
  rest : List GoString
  deriving DecidableEq, Repr

/-- The cursor over a token list, positioned before its first token. -/
def NewIter (tokens : List GoString) : Iter := ⟨tokens⟩

/-- One call `iter()`: the token under the cursor, and the cursor advanced by one. -/
def Iter.next (it : Iter) : Option (GoString × Iter) :=
  match it.rest with
  | [] => none
  | t :: ts => some (t, ⟨ts⟩)

/-- The value of a decimal digit. -/
def digitVal (c : Char) : Option Nat :=
  if 48 ≤ c.toNat ∧ c.toNat ≤ 57 then some (c.toNat - 48) else none

/-- The number written by a run of decimal digits read after the value `acc`. -/
def digitsValue : Nat → List Char → Option Nat
  | acc, [] => some acc
  | acc, c :: cs =>
    match digitVal c with
    | none => none
    | some d => digitsValue (10 * acc + d) cs

/-- The integer a text denotes in decimal notation: an optional sign and at least one
digit, nothing else. -/
def decimalValue (s : GoString) : Option Int :=
  match s with
  | [] => none
  | c :: cs =>
    if c = '-' then
      if cs.isEmpty then none else (digitsValue 0 cs).map (fun n => -(n : Int))
    else if c = '+' then
      if cs.isEmpty then none else (digitsValue 0 cs).map (fun n => (n : Int))
    else (digitsValue 0 (c :: cs)).map (fun n => (n : Int))

/-- The range of the Go type `int64`. -/
def inInt64 (v : Int) : Bool := decide (-(2 : Int) ^ 63 ≤ v) && decide (v < (2 : Int) ^ 63)

/-- Modelled from the spec: the converter `TrimParseInt64HandlingError` of the marshal
package, whose code is not among the sources at hand. It converts the trimmed token as a
literal 64-bit integer; a token that fails to convert gives a conversion error that
names the token. -/
def TrimParseInt64HandlingError (s : GoString) : Except ConvError Int :=
  match decimalValue (TrimSpace s) with
  | some v => if inInt64 v then .ok v else .error ⟨TrimSpace s⟩
  | none => .error ⟨TrimSpace s⟩

/-- What the body of the loop of `Filesystems` does with one line. -/
inductive LineOutcome where
  /-- The record that is appended to `filesystems`. -/
  | record (fs : model.Filesystem)
  /-- The statement `return nil, err` was reached. -/
  | convError (e : ConvError)
  /-- The cursor was read past the last token of the line. -/
  | exhausted
  deriving DecidableEq, Repr

/-- The body of the loop of `Filesystems` for one line: seven calls of the cursor over
`strings.Fields(line)`, in the order of the source. -/
def parseFilesystemLine (line : GoString) : LineOutcome :=
  match (NewIter (Fields line)).next with
  | none => .exhausted
  | some (t1, iter) =>
  match iter.next with
  | none => .exhausted
  | some (t2, iter) =>
  match iter.next with
  | none => .exhausted
  | some (t3, iter) =>
  match TrimParseInt64HandlingError t3 with
  | .error e => .convError e
  | .ok size =>
  match iter.next with
  | none => .exhausted
  | some (t4, iter) =>
  match TrimParseInt64HandlingError t4 with
  | .error e => .convError e
  | .ok used =>
  match iter.next with
  | none => .exhausted
  | some (t5, iter) =>
  match TrimParseInt64HandlingError t5 with
  | .error e => .convError e
  | .ok avail =>
  match iter.next with
  | none => .exhausted
  | some (_, iter) =>
  match iter.next with
  | none => .exhausted
  | some (t7, _) =>
    .record
      { Filesystem := TrimSpace t1, FsType := TrimSpace t2, Size := size,
        UsedSpace := used, AvailableSpace := avail, MountedOn := TrimSpace t7 }

/-- The pair `([]model.Filesystem, error)` that `Filesystems` returns: `filesystems` is
`none` for the nil slice, `err` is `none` for the nil error. -/
structure FilesystemsResult where
  filesystems : Option (List model.Filesystem)
  err : Option ConvError
  deriving DecidableEq, Repr

/-- The loop of `Filesystems` over the scanned lines, `filesystems` being the slice
built so far. The result is `none` when the cursor is read past the last token of a
line, for which the spec defines no result. -/
def FilesystemsLoop : List GoString → List model.Filesystem → Option FilesystemsResult
  | [], filesystems => some ⟨some filesystems, none⟩
  | line :: rest, filesystems =>
    match parseFilesystemLine line with
    | .exhausted => none
    | .convError e => some ⟨none, some e⟩
    | .record fs => FilesystemsLoop rest (filesystems ++ [fs])

/-- The function `Filesystems` of `marshal/filesystem.go`. -/
def Filesystems (cmdOutput : GoString) : Option FilesystemsResult :=
  FilesystemsLoop (scanLines cmdOutput) []

/-! ## `marshal/vms.go` -/

/-- The record `model.VMInfo`, with the fields that the two parsers assign. -/
structure model.VMInfo where
  ClusterName : GoString
  Name : GoString
  Hostname : GoString
  CappedCPU : Bool
  PhysicalHost : GoString
  deriving DecidableEq, Repr

/-- The header line that `VmwareVMs` skips. -/
def vmHeader : GoString := "Cluster,Name,guestHostname".toList

/-- The test `len(splitted) == 3 && splitted[0] == "Cluster" && splitted[1] == "Name" &&
splitted[2] == "guestHostname"` of `VmwareVMs`. -/
def isHeader (splitted : List GoString) : Bool :=
  splitted.length == 3 && splitted[0]? == some "Cluster".toList &&
    splitted[1]? == some "Name".toList && splitted[2]? == some "guestHostname".toList

/-- The normalisation `if vm.Hostname == "" { vm.Hostname = vm.Name }`. -/
def defaultHostname (vm : model.VMInfo) : model.VMInfo :=
  if vm.Hostname = [] then { vm with Hostname := vm.Name } else vm

/-- The loop of `VmwareVMs` over the scanned lines, `vms` being the slice built so far.
The result is `none` when the Go code panics with an index out of range, at
`splitted[1]`, `splitted[2]` or `splitted[3]`. -/
def VmwareVMsLoop : List GoString → List model.VMInfo → Option (List model.VMInfo)
  | [], vms => some vms
  | line :: rest, vms =>
    let splitted := Split line ','
    if isHeader splitted then VmwareVMsLoop rest vms
    else
      match splitted[0]?, splitted[1]?, splitted[2]?, splitted[3]? with
      | some c0, some c1, some c2, some c3 =>
        let vm : model.VMInfo :=
          { ClusterName := TrimSpace c0, Name := TrimSpace c1, Hostname := TrimSpace c2,
            CappedCPU := false, PhysicalHost := TrimSpace c3 }
        VmwareVMsLoop rest (vms ++ [defaultHostname vm])
      | _, _, _, _ => none

/-- The function `VmwareVMs` of `marshal/vms.go`; `none` is a run-time panic. -/
def VmwareVMs (cmdOutput : GoString) : Option (List model.VMInfo) :=
  VmwareVMsLoop (scanLines cmdOutput) []

/-- The loop of `OvmVMs` over the scanned lines, `vms` being the slice built so far;
`none` would be an index out of range. The converter `parseBool` of the marshal package
is not among the sources at hand and is a parameter. -/
def OvmVMsLoop (parseBool : GoString → Bool) : List GoString → List model.VMInfo → Option (List model.VMInfo)
  | [], vms => some vms
  | line :: rest, vms =>
    let splitted := Split line ','
    if splitted.length < 5 then OvmVMsLoop parseBool rest vms
    else
      match splitted[0]?, splitted[1]?, splitted[2]?, splitted[3]?, splitted[4]? with
      | some c0, some c1, some c2, some c3, some c4 =>
        let vm : model.VMInfo :=
          { ClusterName := TrimSpace c0, Name := TrimSpace c1, Hostname := TrimSpace c2,
            CappedCPU := parseBool (TrimSpace c3), PhysicalHost := TrimSpace c4 }
        OvmVMsLoop parseBool rest (vms ++ [defaultHostname vm])
      | _, _, _, _, _ => none

/-- The function `OvmVMs` of `marshal/vms.go`; `none` would be a run-time panic. -/
def OvmVMs (parseBool : GoString → Bool) (cmdOutput : GoString) : Option (List model.VMInfo) :=
  OvmVMsLoop parseBool (scanLines cmdOutput) []

/-! ## `marshal/host.go` -/

/-- The record `model.Host`, with the fields that `Host` assigns. The type `F` stands
for the Go type `float64`. -/
structure model.Host (F : Type) where
  Hostname : GoString
  CPUModel : GoString
  CPUFrequency : GoString
  CPUSockets : Int
  CPUCores : Int
  CPUThreads : Int
  ThreadsPerCore : Int
  CoresPerSocket : Int
  HardwareAbstraction : GoString
  HardwareAbstractionTechnology : GoString
  Kernel : GoString
  KernelVersion : GoString
  OS : GoString
  OSVersion : GoString
  MemoryTotal : F
  SwapTotal : F
  deriving DecidableEq, Repr

/-- A Go `map[string]string`: the entries, most recent write first. -/
abbrev GoMap := List (GoString × GoString)

/-- The index expression `data[key]` on a map: the value written last under the key,
the empty string when the key is absent. -/
def GoMap.get (data : GoMap) (key : GoString) : GoString :=
  (data.lookup key).getD []

/-- The key and the value of a line `key: value`: the text before the first colon and
the text after it; `none` for a line without a colon. -/
def splitKeyValue : GoString → Option (GoString × GoString)
  | [] => none
  | c :: cs =>
    if c = ':' then some ([], cs)
    else (splitKeyValue cs).map (fun kv => (c :: kv.1, kv.2))

/-- The mapping built from lines read in order, `data` being the mapping so far. -/
def keyValueLoop : List GoString → GoMap → GoMap
  | [], data => data
  | line :: rest, data =>
    match splitKeyValue line with
    | none => keyValueLoop rest data
    | some kv => keyValueLoop rest (kv :: data)

/-- Modelled from the spec: the function `parseKeyValueColonSeparated` of the marshal
package, whose code is not among the sources at hand. The input has one `key: value` pair
per line, colon-separated; the result is the mapping of the keys to their values, keys
unique, last write wins. -/
def parseKeyValueColonSeparated (cmdOutput : GoString) : GoMap :=
  keyValueLoop (scanLines cmdOutput) []

/-- Modelled from the spec: the converter `TrimParseInt` of the marshal package, whose
code is not among the sources at hand. It converts the trimmed text as a literal integer;
the key/value parser has no failure path, and a missing key (the empty text) gives the
zero value, as does here any text that is not an integer of the Go type `int`
(64 bits). -/
def TrimParseInt (s : GoString) : Int :=
  match decimalValue (TrimSpace s) with
  | some v => if inInt64 v then v else 0
  | none => 0

/-- The function `Host` of `marshal/host.go`. The converter `TrimParseFloat64` of the
marshal package is not among the sources at hand and is a parameter, with the type `F`
of its results. -/
def Host {F : Type} (TrimParseFloat64 : GoString → F) (cmdOutput : GoString) : model.Host F :=
  let data := parseKeyValueColonSeparated cmdOutput
  { Hostname := TrimSpace (data.get "Hostname".toList)
    CPUModel := TrimSpace (data.get "CPUModel".toList)
    CPUFrequency := TrimSpace (data.get "CPUFrequency".toList)
    CPUSockets := TrimParseInt (data.get "CPUSockets".toList)
    CPUCores := TrimParseInt (data.get "CPUCores".toList)
    CPUThreads := TrimParseInt (data.get "CPUThreads".toList)
    ThreadsPerCore := TrimParseInt (data.get "ThreadsPerCore".toList)
    CoresPerSocket := TrimParseInt (data.get "CoresPerSocket".toList)
    HardwareAbstraction := TrimSpace (data.get "HardwareAbstraction".toList)
    HardwareAbstractionTechnology := TrimSpace (data.get "HardwareAbstractionTechnology".toList)
    Kernel := TrimSpace (data.get "Kernel".toList)
    KernelVersion := TrimSpace (data.get "KernelVersion".toList)
    OS := TrimSpace (data.get "OS".toList)
    OSVersion := TrimSpace (data.get "OSVersion".toList)
    MemoryTotal := TrimParseFloat64 (data.get "MemoryTotal".toList)
    SwapTotal := TrimParseFloat64 (data.get "SwapTotal".toList) }

/-- The input has a line that gives a value to the key. -/
def hasKey (cmdOutput key : GoString) : Prop :=
  ∃ line ∈ scanLines cmdOutput, (splitKeyValue line).map Prod.fst = some key

/-- The value that a line gives to the key, if it is a line of that key. -/
def valueFor (key line : GoString) : Option GoString :=
  match splitKeyValue line with
  | some kv => if kv.1 = key then some kv.2 else none
  | none => none

/-- The value the input gives to the key last: the value on the last line of that key,
if there is one. -/
def lastValue (cmdOutput key : GoString) : Option GoString :=
  ((scanLines cmdOutput).filterMap (valueFor key)).getLast?

/-! ## `main.go`: the delivery client -/

/-- The settings of `config.Configuration` that `main.go` reads: those of `sendData`,
and the period of the collection, in hours. -/
structure Configuration where
  DataserviceURL : GoString
  AgentUser : GoString
  AgentPassword : GoString
  EnableServerValidation : Bool
  Verbose : Bool
  Period : Int
  deriving DecidableEq, Repr

/-- The value `*http.Client` that `sendData` builds: `InsecureSkipVerify` tells whether
its transport was replaced by one whose TLS configuration skips the validation of the
peer certificate. -/
structure Client where
  InsecureSkipVerify : Bool
  deriving DecidableEq, Repr

/-- The value `*http.Request` as far as `sendData` sets it. -/
structure Request where
  Method : GoString
  URL : GoString
  Body : GoString
  Header : List (GoString × GoString)
  BasicAuth : Option (GoString × GoString)
  deriving DecidableEq, Repr

/-- The value `*http.Response` as far as `sendData` reads it. -/
structure Response where
  Status : GoString
  StatusCode : Int
  deriving DecidableEq, Repr

/-- The levels of the calls on the logger. -/
inductive Level where
  | Info
  | Error
  | Debug
  deriving DecidableEq, Repr

/-- What `sendData` does to the outside, in order. -/
inductive Event where
  /-- A call on the logger, with its arguments as text. -/
  | log (level : Level) (args : List GoString)
  /-- A call `os.Create(filePath)`. -/
  | create (path : GoString)
  /-- A call `tmpFile.Write(dataBytes)`. -/
  | write (path : GoString) (content : GoString)
  /-- The deferred `tmpFile.Close()`. -/
  | closeFile (path : GoString)
  /-- A call `client.Do(req)`. -/
  | httpDo (client : Client) (req : Request)
  /-- The deferred `resp.Body.Close()`. -/
  | closeBody
  deriving DecidableEq, Repr

/-- How a call ends: it returns, or it panics (which ends the process). -/
inductive Termination where
  | returned
  | panicked
  deriving DecidableEq, Repr

/-- A run of `sendData`: what it did, and how it ended. -/
structure Run where
  events : List Event
  termination : Termination
  deriving DecidableEq, Repr

/-- The surroundings of `sendData`: the JSON encoder, the file system, the clock, the
URL parser of `http.NewRequest` and the network. `Doc` is the type `*model.HostData`. -/
structure World (Doc : Type) where
  /-- The bytes of `json.Marshal(data)` (empty when it fails: the error is dropped). -/
  Marshal : Doc → GoString
  /-- The bytes of `json.MarshalIndent(data, "", "    ")`. -/
  MarshalIndent : Doc → GoString
  /-- The value of `os.TempDir()`. -/
  TempDir : GoString
  /-- The value of `time.Now().Local().Format("06-01-02-15:04:05")`. -/
  Timestamp : GoString
  /-- Whether `os.Create` succeeds on the path. -/
  CreateOk : GoString → Bool
  /-- Whether `tmpFile.Write` succeeds on the path. -/
  WriteOk : GoString → Bool
  /-- Whether `http.NewRequest` can build a request for the URL (the URL parses). -/
  URLValid : GoString → Bool
  /-- The result of `client.Do(req)`: a transport error, or a response. -/
  Do : Client → Request → Except GoString Response

/-- The function `http.NewRequest` for a valid method: the request, or `none` for the
nil request that comes with an error when the URL does not parse. -/
def World.NewRequest {Doc : Type} (w : World Doc) (method url body : GoString) : Option Request :=
  if w.URLValid url then
    some { Method := method, URL := url, Body := body, Header := [], BasicAuth := none }
  else none

/-- The function `writeHostDataOnTmpFile` of `main.go`: the events of its run. -/
def writeHostDataOnTmpFile {Doc : Type} (w : World Doc) (data : Doc) : List Event :=
  let dataBytes := w.MarshalIndent data
  let filePath :=
    w.TempDir ++ "/ercole-agent-hostdata-".toList ++ w.Timestamp ++ ".json".toList
  if w.CreateOk filePath then
    if w.WriteOk filePath then
      [.create filePath, .write filePath dataBytes,
        .log .Debug ["Hostdata pretty-printed on file: %v".toList, filePath],
        .closeFile filePath]
    else
      [.create filePath, .write filePath dataBytes,
        .log .Debug ["Can't write hostdata in file: %v".toList, w.TempDir ++ filePath],
        .closeFile filePath]
  else
    [.create filePath,
      .log .Debug ["Can't create hostdata file: %v".toList, w.TempDir ++ filePath]]

/-- The first statements of `sendData`, up to the diagnostic copy: their events. -/
def sendDataStart {Doc : Type} (w : World Doc) (data : Doc) (configuration : Configuration) :
    List Event :=
  [.log .Info ["Sending data...".toList], .log .Debug ["Hostdata: %v".toList, w.Marshal data]]
    ++ (if configuration.Verbose then writeHostDataOnTmpFile w data else [])

/-- The function `sendData` of `main.go`. -/
def sendData {Doc : Type} (w : World Doc) (data : Doc) (configuration : Configuration) : Run :=
  let dataBytes := w.Marshal data
  let start : List Event := sendDataStart w data configuration
  let client : Client := { InsecureSkipVerify := !configuration.EnableServerValidation }
  match w.NewRequest "POST".toList (configuration.DataserviceURL ++ "/hosts".toList) dataBytes with
  | none =>
    -- `req` is nil: `req.Header.Add` dereferences it
    { events := start, termination := .panicked }
  | some req =>
    let req := { req with Header := req.Header ++ [("Content-Type".toList, "application/json".toList)] }
    let req := { req with BasicAuth := some (configuration.AgentUser, configuration.AgentPassword) }
    match w.Do client req with
    | .error err =>
      { events := start ++
          [.httpDo client req, .log .Error ["Error sending data: ".toList, err],
            .log .Info ["Sending result: ".toList, "FAILED".toList]],
        termination := .returned }
    | .ok resp =>
      let sendResult := if resp.StatusCode = 200 then "SUCCESS".toList else "FAILED".toList
      { events := start ++
          [.httpDo client req, .log .Info ["Response status: ".toList, resp.Status],
            .log .Info ["Sending result: ".toList, sendResult], .closeBody],
        termination := .returned }

/-- The outcome that an event logs, if it is a call
`log.Info("Sending result: ", sendResult)`. -/
def outcomeOf : Event → Option GoString
  | .log .Info [label, outcome] =>
    if label = "Sending result: ".toList then some outcome else none
  | _ => none

/-- The request that an event issues, if it is a call `client.Do(req)`. -/
def requestOf : Event → Option Request
  | .httpDo _ req => some req
  | _ => none

/-- The outcomes that a run logs, in order. -/
def loggedOutcomes (r : Run) : List GoString := r.events.filterMap outcomeOf

/-- The requests that a run issues with `client.Do`, in order. -/
def requestsIssued (r : Run) : List Request := r.events.filterMap requestOf

/-- A world for examples: URLs that start with a colon do not parse (the URL parser of
Go rejects them: missing protocol scheme), and the server answers with the given code. -/
def exampleWorld (code : Int) : World Unit where
  Marshal := fun _ => "\x7b\x7d".toList
  MarshalIndent := fun _ => "\x7b\x7d".toList
  TempDir := "/tmp".toList
  Timestamp := "24-01-02-03:04:05".toList
  CreateOk := fun _ => true
  WriteOk := fun _ => true
  URLValid := fun url => url.head? != some ':'
  Do := fun _ _ => .ok { Status := "status".toList, StatusCode := code }

/-- A configuration for examples. -/
def exampleConfiguration (url : String) : Configuration where
  DataserviceURL := url.toList
  AgentUser := "user".toList
  AgentPassword := "secret".toList
  EnableServerValidation := true
  Verbose := false
  Period := 24

/-! ## `main.go`: the build-and-send cycle and the program -/

/-- The document `model.HostData`: the three fields that `doBuildAndSend` stamps, and
every other field together as `Rest`. `Tags` is `none` for the nil slice. -/
structure model.HostData (R : Type) where
  AgentVersion : GoString
  SchemaVersion : Int
  Tags : Option (List GoString)
  Rest : R
  deriving DecidableEq, Repr

/-- The variable `version` of `main.go`. -/
def version : GoString := "latest".toList

/-- The variable `hostDataSchemaVersion` of `main.go`. -/
def hostDataSchemaVersion : Int := 1

/-- The document that `doBuildAndSend` hands to `sendData`: the result of the build step
after the three assignments, in the order of the source. The function
`builder.BuildData` is not among the sources at hand and is a parameter. -/
def doBuildAndSendData {R : Type} (BuildData : Configuration → model.HostData R)
    (configuration : Configuration) : model.HostData R :=
  let hostData := BuildData configuration
  let hostData := { hostData with AgentVersion := version }
  let hostData := { hostData with SchemaVersion := hostDataSchemaVersion }
  let hostData := { hostData with Tags := some [] }
  hostData

/-- The function `doBuildAndSend` of `main.go`: the run of its call of `sendData`. -/
def doBuildAndSend {R : Type} (w : World (model.HostData R))
    (BuildData : Configuration → model.HostData R) (configuration : Configuration) : Run :=
  sendData w (doBuildAndSendData BuildData configuration) configuration

/-- The constant `time.Hour`, in nanoseconds. -/
def Hour : Int := 3600000000000

/-- The value of an integer in the Go type `int64` (arithmetic wraps around). -/
def toInt64 (v : Int) : Int := (v + 2 ^ 63) % 2 ^ 64 - 2 ^ 63

/-- The expression `time.Duration(configuration.Period)*time.Hour`: the period handed
to the scheduler, in nanoseconds. -/
def jobPeriod (configuration : Configuration) : Int :=
  toInt64 (configuration.Period * Hour)

/-- Modelled from the spec: the Schedule Record of a job, owned by the Schedule Store
(the scheduler packages are not among the sources at hand): the time of the last fire
and the time the job is due next, which is the last fire plus the period. -/
structure ScheduleRecord where
  lastFired : Int
  nextDue : Int
  deriving DecidableEq, Repr

/-- Modelled from the spec: the operation `RecordFired` of the Schedule Store, which the
scheduler calls when the action of a job has completed at time `now`: the job is due
again at `now + period`. -/
def RecordFired (period now : Int) : ScheduleRecord :=
  { lastFired := now, nextDue := now + period }

/-- Modelled from the spec: the method `RunEvery` of the scheduler. A job has a positive
period; registering a job with a period that is not positive fails. The result is the
period of the registered job, or the error. -/
def RunEvery (period : Int) : Except GoString Int :=
  if period ≤ 0 then .error "invalid period".toList else .ok period

/-- Modelled from the spec: the time at which an armed job fires, evaluated at time
`now`. A job with no prior Schedule Record is immediately due and fires at once; a job
with a record fires when the clock reaches its next-due time. -/
def fireTime (record : Option ScheduleRecord) (now : Int) : Int :=
  match record with
  | none => now
  | some r => if r.nextDue ≤ now then now else r.nextDue

/-- Modelled from the spec: the fires of one job after `Start`, as the list of the times
at which its action is invoked; `fuel` is the number of fires listed (the scheduler runs
until it is stopped). The job is evaluated at time `now` with the Schedule Record
`record`; the action is invoked synchronously, the call number `k` of the action taking
`cycleTime k`, and when it has completed (or failed) the fire is recorded and the job is
armed again. -/
def schedulerFires (period : Int) (cycleTime : Nat → Nat) :
    Nat → Nat → Option ScheduleRecord → Int → List Int
  | 0, _, _, _ => []
  | fuel + 1, k, record, now =>
    let firedAt := fireTime record now
    let done := firedAt + cycleTime k
    firedAt :: schedulerFires period cycleTime fuel (k + 1) (some (RecordFired period done)) done

/-- The surroundings of the program: those of `sendData`, the build step, the
configuration that `config.ReadConfig` returns, whether the two loggers initialise,
whether the scheduler can start its timing mechanism, the time that each call of
`doBuildAndSend` takes (call 0 is the one at startup), in nanoseconds, and the scheduler.
The scheduler packages are not among the sources at hand: `Fires period now fuel` stands
for the times at which the scheduler invokes the action of the job registered with the
period, when `Start` is called at time `now`, the first `fuel` of them. -/
structure Runtime (R : Type) where
  world : World (model.HostData R)
  BuildData : Configuration → model.HostData R
  configuration : Configuration
  ConfigLoggerOk : Bool
  AgentLoggerOk : Bool
  TimerOk : Bool
  CycleTime : Nat → Nat
  Fires : Int → Int → Nat → List Int

/-- What the program does, in order, with the time of each event (the clock is at 0 when
`run` first calls `doBuildAndSend`). -/
inductive RunEvent where
  /-- A call of `doBuildAndSend` that starts at the given time, with its run. -/
  | cycle (time : Int) (r : Run)
  /-- A call of `log.Fatal` or `p.log.Fatal`: the process exits. -/
  | fatal (time : Int) (msg : GoString)
  deriving DecidableEq, Repr

/-- The method `program.run` of `main.go`: the events of the process, of which the first
`fuel` fires of the scheduler. A panic of the call of `doBuildAndSend` at startup ends
the process. After `scheduler.Start`, the job is handled by the scheduler, which invokes
its action at the times `rt.Fires`, and `scheduler.Wait` blocks. -/
def run {R : Type} (rt : Runtime R) (fuel : Nat) : List RunEvent :=
  if !rt.ConfigLoggerOk then [.fatal 0 "Can't initialize CONFIG logger: ".toList]
  else if !rt.AgentLoggerOk then [.fatal 0 "Can't initialize AGENT logger: ".toList]
  else
    let cycle := doBuildAndSend rt.world rt.BuildData rt.configuration
    match cycle.termination with
    | .panicked => [.cycle 0 cycle]
    | .returned =>
      let now : Int := rt.CycleTime 0
      match RunEvery (jobPeriod rt.configuration) with
      | .error _ => [.cycle 0 cycle, .fatal now "Error scheduling Ercole agent".toList]
      | .ok period =>
        if !rt.TimerOk then
          [.cycle 0 cycle, .fatal now "Error starting Ercole agent scheduler".toList]
        else
          .cycle 0 cycle ::
            (rt.Fires period now fuel).map (fun t => .cycle t cycle)

/-- The calls of `doBuildAndSend` among the events: their runs, in order. -/
def cyclesOf (events : List RunEvent) : List Run :=
  events.filterMap fun e =>
    match e with
    | .cycle _ r => some r
    | .fatal _ _ => none

/-- The times of the calls of `doBuildAndSend` among the events, in order. -/
def cycleTimes (events : List RunEvent) : List Int :=
  events.filterMap fun e =>
    match e with
    | .cycle t _ => some t
    | .fatal _ _ => none

/-- The events that precede the first fatal exit. -/
def beforeFatal (events : List RunEvent) : List RunEvent :=
  events.takeWhile fun e =>
    match e with
    | .cycle _ _ => true
    | .fatal _ _ => false

/-- The process ends with a fatal exit. -/
def endsFatal (events : List RunEvent) : Bool :=
  match events.getLast? with
  | some (.fatal _ _) => true
  | _ => false

/-- The job fires on `Start` with no wait: the first fire of the scheduler is at the time
at which `Start` is called, which is when the call of `doBuildAndSend` at startup has
returned. -/
def firesOnStart {R : Type} (rt : Runtime R) (fuel : Nat) : Prop :=
  (rt.Fires (jobPeriod rt.configuration) (rt.CycleTime 0) fuel).head? =
    some (rt.CycleTime 0 : Int)

/-- The times of the calls of `doBuildAndSend` that start before one period has elapsed
since the startup of the program. -/
def cyclesInFirstPeriod {R : Type} (rt : Runtime R) (events : List RunEvent) : List Int :=
  (cycleTimes events).filter (fun t => decide (t < jobPeriod rt.configuration))

/-- A world for examples over host documents: as `exampleWorld`. -/
def exampleAgentWorld (code : Int) : World (model.HostData Unit) where
  Marshal := fun d => d.AgentVersion
  MarshalIndent := fun d => d.AgentVersion
  TempDir := "/tmp".toList
  Timestamp := "24-01-02-03:04:05".toList
  CreateOk := fun _ => true
  WriteOk := fun _ => true
  URLValid := fun url => url.head? != some ':'
  Do := fun _ _ => .ok { Status := "status".toList, StatusCode := code }

/-- The scheduler of the spec for a job registered with a fresh memory storage, and so
with no Schedule Record, when the calls of the action take the times `cycleTime`. -/
def specFires (cycleTime : Nat → Nat) (period now : Int) (fuel : Nat) : List Int :=
  schedulerFires period cycleTime fuel 1 none now

/-- A runtime for examples: the build step returns an unstamped document, both loggers
and the timer work, every cycle takes five seconds, and the scheduler is that of the
spec. -/
def exampleRuntime (period : Int) : Runtime Unit where
  world := exampleAgentWorld 200
  BuildData := fun _ => { AgentVersion := [], SchemaVersion := 0, Tags := none, Rest := () }
  configuration := { exampleConfiguration "http://ercole" with Period := period }
  ConfigLoggerOk := true
  AgentLoggerOk := true
  TimerOk := true
  CycleTime := fun _ => 5000000000
  Fires := specFires (fun _ => 5000000000)

/-! ## Vocabulary of the properties -/

/-- The lines of an input: the text between newlines, without the carriage return that
may end a line. These are the lines a scanner yields when every line fits its buffer. -/
def inputLines (s : GoString) : List GoString := (rawLines s).map dropCR

/-- Every line of the input fits the buffer of the scanner: it is at most 65535 bytes
long. -/
def linesFit (s : GoString) : Prop := ∀ l ∈ rawLines s, byteLen l < MaxScanTokenSize

/-- The white-space separated token `i` (counted from 1) of a line; empty when the line
has fewer tokens. -/
def token (line : GoString) (i : Nat) : GoString := (Fields line).getD (i - 1) []

/-- The text is a decimal integer of the 64-bit range. -/
def isInt64Text (t : GoString) : Bool :=
  match decimalValue t with
  | some v => inInt64 v
  | none => false

/-- The integer value of a decimal text. -/
def intValue (t : GoString) : Int := (decimalValue t).getD 0

/-- A well-formed line of the columnar format: at least seven tokens, of which tokens 3,
4 and 5 are decimal integers. -/
def wellFormedLine (line : GoString) : Bool :=
  decide (7 ≤ (Fields line).length) && isInt64Text (token line 3) &&
    isInt64Text (token line 4) && isInt64Text (token line 5)

/-- The record that the columnar format assigns to a line: tokens 1, 2 and 7 as text,
tokens 3, 4 and 5 as integers; token 6 is in no field. -/
def lineRecord (line : GoString) : model.Filesystem :=
  { Filesystem := token line 1, FsType := token line 2, Size := intValue (token line 3),
    UsedSpace := intValue (token line 4), AvailableSpace := intValue (token line 5),
    MountedOn := token line 7 }

/-- Tokens 3, 4 and 5 of the line (size, used space, available space) all convert to
an integer. -/
def numericTokensConvert (line : GoString) : Bool :=
  isInt64Text (token line 3) && isInt64Text (token line 4) && isInt64Text (token line 5)

/-- A line of a bit more than 64 KiB (65536 letters and six more tokens). -/
def longFilesystemLine : GoString :=
  List.replicate 65536 'a' ++ " ext4 1024 512 512 50% /mnt".toList

/-- A text field of the host record agrees with the input under its key: empty when no
line gives the key a value, the trimmed last value of the key otherwise. -/
def textFieldOf (cmdOutput key field : GoString) : Prop :=
  (¬ hasKey cmdOutput key → field = []) ∧
    (∀ v, lastValue cmdOutput key = some v → field = TrimSpace v)

/-- An integer field of the host record agrees with the input under its key: zero when
no line gives the key a value, the conversion of the last value of the key otherwise. -/
def intFieldOf (cmdOutput key : GoString) (field : Int) : Prop :=
  (¬ hasKey cmdOutput key → field = 0) ∧
    (∀ v, lastValue cmdOutput key = some v → field = TrimParseInt v)

/-- A floating-point field of the host record agrees with the input under its key:
`zero` when no line gives the key a value, the conversion of the last value of the key
otherwise. -/
def floatFieldOf {F : Type} (TrimParseFloat64 : GoString → F) (zero : F)
    (cmdOutput key : GoString) (field : F) : Prop :=
  (¬ hasKey cmdOutput key → field = zero) ∧
    (∀ v, lastValue cmdOutput key = some v → field = TrimParseFloat64 v)

/-- An input of two lines: a line of 64 KiB, then a line whose size column is `x`. -/
def longThenBadSize : GoString :=
  List.replicate 65536 'a' ++ '\n' :: "/dev/sda1 ext4 x 512 512 50% /mnt".toList

/-- The comma-separated columns of a line. -/
def columns (line : GoString) : List GoString := Split line ','

/-- The comma-separated column `i` (counted from 1) of a line, trimmed of white space;
empty when the line has fewer columns. -/
def column (line : GoString) (i : Nat) : GoString :=
  TrimSpace ((columns line).getD (i - 1) [])

/-- A converter of the boolean column for examples: `Y` is true, any other token false. -/
def parseBoolY (s : GoString) : Bool := decide (s = "Y".toList)

/-- The line has at least five comma-separated columns. -/
def hasFiveColumns (line : GoString) : Bool := decide (5 ≤ (columns line).length)

/-- The record of `OvmVMs` for a line of at least five columns. -/
def ovmRecord (parseBool : GoString → Bool) (line : GoString) : model.VMInfo :=
  defaultHostname
    { ClusterName := column line 1, Name := column line 2, Hostname := column line 3,
      CappedCPU := parseBool (column line 4), PhysicalHost := column line 5 }

/-- A record agrees with a line of the OVM dialect on the cluster, the name and the
physical host: the trimmed columns 1, 2 and 5. -/
def ovmRow (line : GoString) (vm : model.VMInfo) : Prop :=
  vm.ClusterName = column line 1 ∧ vm.Name = column line 2 ∧ vm.PhysicalHost = column line 5

/-- The rule of the host name of a record made from a line: the trimmed third column
when that is not empty, the name of the record otherwise; the name is the trimmed second
column. -/
def hostnameRule (line : GoString) (vm : model.VMInfo) : Prop :=
  vm.Name = column line 2 ∧
    vm.Hostname = if column line 3 = [] then vm.Name else column line 3

/-- The line is not the header line that `VmwareVMs` skips. -/
def isDataLine (line : GoString) : Bool := !isHeader (columns line)

/-- The line has at least four comma-separated columns. -/
def hasFourColumns (line : GoString) : Bool := decide (4 ≤ (columns line).length)

/-- The record of `VmwareVMs` for a line of at least four columns. -/
def vmwareRecord (line : GoString) : model.VMInfo :=
  defaultHostname
    { ClusterName := column line 1, Name := column line 2, Hostname := column line 3,
      CappedCPU := false, PhysicalHost := column line 4 }

/-- Two VMware lines with the same name, the first without a host name. -/
def vmwareSample : GoString := "c1,vm,,p1\nc2,vm,h2,p2".toList

/-- Two OVM lines with the same name, the first without a host name. -/
def ovmSample : GoString := "c1,vm,,Y,p1\nc2,vm,h2,N,p2".toList

/-- A five-column line of a bit more than 64 KiB. -/
def longVmLine : GoString := List.replicate 65536 'a' ++ ",vm1,h1,Y,host1".toList

/-- The URL of the delivery: the configured base URL followed by `/hosts`. -/
def deliveryURL (configuration : Configuration) : GoString :=
  configuration.DataserviceURL ++ "/hosts".toList

/-- The request of the delivery protocol: a POST of the serialised document to the
delivery URL, with the JSON content type and the configured basic-auth credentials. -/
def deliveryRequest {Doc : Type} (w : World Doc) (data : Doc) (configuration : Configuration) :
    Request :=
  { Method := "POST".toList, URL := deliveryURL configuration, Body := w.Marshal data,
    Header := [("Content-Type".toList, "application/json".toList)],
    BasicAuth := some (configuration.AgentUser, configuration.AgentPassword) }

/-- The client that the configuration asks for: certificate validation is skipped exactly
when server validation is not enabled. -/
def deliveryClient (configuration : Configuration) : Client :=
  { InsecureSkipVerify := !configuration.EnableServerValidation }

/-- The POST gets a response with status code 200: no transport error. -/
def answered200 {Doc : Type} (w : World Doc) (data : Doc) (configuration : Configuration) : Prop :=
  ∃ resp, w.Do (deliveryClient configuration) (deliveryRequest w data configuration) = .ok resp ∧
    resp.StatusCode = 200

/-- A key/value input without the key `CPUCores`, among others. -/
def hostSample : GoString := "Hostname: h1 \nCPUSockets: 2\nMemoryTotal: 3".toList

/-- The key of a line `key: value`, if the line has one. -/
def keyOf (line : GoString) : Option GoString := (splitKeyValue line).map Prod.fst

/-- The client of an event, if it is a call `client.Do(req)`. -/
def clientOf : Event → Option Client
  | .httpDo client _ => some client
  | _ => none

/-- The clients with which a run issues its requests, in order. -/
def clientsUsed (r : Run) : List Client := r.events.filterMap clientOf

/-- The level and the arguments of an event, if it is a call on the logger. -/
def logEntryOf : Event → Option (Level × List GoString)
  | .log level args => some (level, args)
  | _ => none

/-- The calls that a run makes on the logger, in order. -/
def logEntries (r : Run) : List (Level × List GoString) := r.events.filterMap logEntryOf

/-- The first arguments of the calls on the logger in `sendData` and in
`writeHostDataOnTmpFile`: the fixed texts that say what an entry is about. -/
def sendDataLabels : List GoString :=
  ["Sending data...".toList, "Hostdata: %v".toList, "Hostdata pretty-printed on file: %v".toList,
    "Can't write hostdata in file: %v".toList, "Can't create hostdata file: %v".toList,
    "Error sending data: ".toList, "Response status: ".toList, "Sending result: ".toList]

/-- The entry starts with one of the fixed texts of `sendDataLabels`. -/
def labelled (entry : Level × List GoString) : Bool :=
  match entry.2 with
  | label :: _ => decide (label ∈ sendDataLabels)
  | [] => false

/-- The event is no call on the logger, or one whose entry starts with one of the fixed
texts. -/
def eventLabelled (e : Event) : Bool :=
  match logEntryOf e with
  | some entry => labelled entry
  | none => true

/-- The example configuration with the validation of the server certificate disabled. -/
def exampleNoValidation : Configuration :=
  { exampleConfiguration "https://ercole" with EnableServerValidation := false }

/-- An event of the diagnostic copy: the creation of the file or a write to it. -/
def diagnosticOf : Event → Option Event
  | .create path => some (.create path)
  | .write path content => some (.write path content)
  | _ => none

/-- The attempts of a run to create or write the diagnostic file, in order. -/
def diagnosticWrites (r : Run) : List Event := r.events.filterMap diagnosticOf

/-- Two worlds are the same for the delivery: the same JSON encoder, URL parser and
network; they may differ in the file system, the clock and the indented encoder. -/
def sameDelivery {Doc : Type} (w1 w2 : World Doc) : Prop :=
  w1.Marshal = w2.Marshal ∧ w1.URLValid = w2.URLValid ∧ w1.Do = w2.Do

/-- A world for examples in which the diagnostic file cannot be created. -/
def exampleWorldNoFile (code : Int) : World Unit :=
  { exampleWorld code with CreateOk := fun _ => false, TempDir := "/nowhere".toList }

/-- The second line is the first line, or the first line, well formed, with further
tokens appended after a space. -/
def extendedLine (l1 l2 : GoString) : Prop :=
  l2 = l1 ∨ (wellFormedLine l1 = true ∧ ∃ extra, l2 = l1 ++ ' ' :: extra)

/-- A well-formed line of exactly 65535 bytes, the longest that fits the scanner buffer. -/
def boundaryLine : GoString :=
  List.replicate 65508 'a' ++ " ext4 1024 512 512 50% /mnt".toList

/-- The line `boundaryLine` with one more token appended: 65537 bytes. -/
def boundaryLineExtended : GoString := boundaryLine ++ " x".toList

/-- Three lines, of which the second has a size column that does not convert. -/
def goodBadGood : GoString :=
  "/dev/sda1 ext4 1024 512 512 50% /\n/dev/sdb1 ext4 10x 5 5 50% /srv\n/dev/sdc1 ext4 8 4 4 50% /mnt".toList

instance (s : GoString) : Decidable (linesFit s) := by
  unfold linesFit
  infer_instance

instance (s key : GoString) : Decidable (hasKey s key) := by
  unfold hasKey
  infer_instance

/-! ## Lemmas on the library functions -/

theorem rawLines_append_newline (l rest : GoString) (h : '\n' ∉ l) :
    rawLines (l ++ '\n' :: rest) = l :: rawLines rest := by
  induction l with
  | nil => simp [rawLines]
  | cons c cs ih =>
    have hc : c ≠ '\n' := fun e => h (by simp [e])
    have hcs : '\n' ∉ cs := fun e => h (by simp [e])
    simp [rawLines, hc, ih hcs]

theorem rawLines_single (l : GoString) (h : '\n' ∉ l) (hne : l ≠ []) : rawLines l = [l] := by
  induction l with
  | nil => exact absurd rfl hne
  | cons c cs ih =>
    have hc : c ≠ '\n' := fun e => h (by simp [e])
    have hcs : '\n' ∉ cs := fun e => h (by simp [e])
    cases cs with
    | nil => simp [rawLines, hc]
    | cons d ds =>
      have := ih hcs (by simp)
      simp [rawLines, hc] at this ⊢
      simp [this]

theorem byteLen_append (a b : GoString) : byteLen (a ++ b) = byteLen a + byteLen b := by
  simp [byteLen]

theorem byteLen_replicate_a (n : Nat) : byteLen (List.replicate n 'a') = n := by
  induction n with
  | zero => rfl
  | succ n ih =>
    have h : byteLen (List.replicate (n + 1) 'a') = runeLen 'a' + byteLen (List.replicate n 'a') := by
      simp [byteLen, List.replicate_succ]
    rw [h, ih]
    have : runeLen 'a' = 1 := by decide
    omega

theorem scanLines_of_fit (s : GoString) (h : ∀ l ∈ rawLines s, byteLen l < MaxScanTokenSize) :
    scanLines s = (rawLines s).map dropCR := by
  unfold scanLines
  congr 1
  rw [List.takeWhile_eq_self_iff]
  intro l hl
  simp [fitsBuffer, h l hl]

theorem scanLines_cons (l rest : GoString) (h : '\n' ∉ l) (hfit : byteLen l < MaxScanTokenSize) :
    scanLines (l ++ '\n' :: rest) = dropCR l :: scanLines rest := by
  simp [scanLines, rawLines_append_newline l rest h, List.takeWhile_cons, fitsBuffer, hfit]

theorem scanLines_long (l rest : GoString) (h : '\n' ∉ l) (hlong : MaxScanTokenSize ≤ byteLen l) :
    scanLines (l ++ '\n' :: rest) = [] := by
  have : ¬ byteLen l < MaxScanTokenSize := by omega
  simp [scanLines, rawLines_append_newline l rest h, List.takeWhile_cons, fitsBuffer, this]

theorem scanLines_long_single (l : GoString) (h : '\n' ∉ l) (hlong : MaxScanTokenSize ≤ byteLen l) :
    scanLines l = [] := by
  have hne : l ≠ [] := by
    rintro rfl
    simp [byteLen, MaxScanTokenSize] at hlong
  have : ¬ byteLen l < MaxScanTokenSize := by omega
  simp [scanLines, rawLines_single l h hne, List.takeWhile_cons, fitsBuffer, this]

theorem dropWhile_eq_self_of_none {p : Char → Bool} (l : GoString) (h : ∀ c ∈ l, p c = false) :
    l.dropWhile p = l := by
  cases l with
  | nil => rfl
  | cons c cs => simp [List.dropWhile_cons, h c (by simp)]

theorem TrimSpace_of_no_space (t : GoString) (h : ∀ c ∈ t, isSpace c = false) : TrimSpace t = t := by
  unfold TrimSpace
  rw [dropWhile_eq_self_of_none t h, dropWhile_eq_self_of_none t.reverse (by simpa using h)]
  simp

theorem fieldsFrom_no_space (s cur : GoString) (hcur : ∀ c ∈ cur, isSpace c = false) :
    ∀ t ∈ fieldsFrom cur s, ∀ c ∈ t, isSpace c = false := by
  induction s generalizing cur with
  | nil =>
    intro t ht c hc
    unfold fieldsFrom at ht
    split at ht
    · simp at ht
    · simp at ht
      subst ht
      exact hcur c (by simpa using hc)
  | cons d ds ih =>
    intro t ht
    unfold fieldsFrom at ht
    by_cases hd : isSpace d = true
    · simp only [hd, if_true] at ht
      split at ht
      · exact ih [] (by simp) t ht
      · rcases List.mem_cons.1 ht with h | h
        · subst h
          intro c hc
          exact hcur c (by simpa using hc)
        · exact ih [] (by simp) t h
    · simp only [hd] at ht
      refine ih (d :: cur) ?_ t ht
      intro c hc
      rcases List.mem_cons.1 hc with h | h
      · subst h; simpa using hd
      · exact hcur c h

theorem Fields_no_space (s : GoString) : ∀ t ∈ Fields s, ∀ c ∈ t, isSpace c = false :=
  fieldsFrom_no_space s [] (by simp)

theorem TrimSpace_field (s t : GoString) (h : t ∈ Fields s) : TrimSpace t = t :=
  TrimSpace_of_no_space t (Fields_no_space s t h)

theorem fieldsFrom_append_no_space (l cur rest : GoString) (h : ∀ c ∈ l, isSpace c = false) :
    fieldsFrom cur (l ++ rest) = fieldsFrom (l.reverse ++ cur) rest := by
  induction l generalizing cur with
  | nil => rfl
  | cons c cs ih =>
    have hc : isSpace c = false := h c (by simp)
    have := ih (c :: cur) (fun d hd => h d (by simp [hd]))
    simp [fieldsFrom, hc, this]

theorem TrimParseInt64HandlingError_field (s t : GoString) (h : t ∈ Fields s)
    (hint : isInt64Text t = true) : TrimParseInt64HandlingError t = .ok (intValue t) := by
  unfold TrimParseInt64HandlingError
  rw [TrimSpace_field s t h]
  unfold isInt64Text at hint
  unfold intValue
  cases hv : decimalValue t with
  | none => simp [hv] at hint
  | some v =>
    simp only [hv] at hint
    simp [hint]

theorem parseFilesystemLine_wellFormed (line : GoString) (h : wellFormedLine line = true) :
    parseFilesystemLine line = .record (lineRecord line) := by
  unfold wellFormedLine at h
  simp only [Bool.and_eq_true, decide_eq_true_eq] at h
  obtain ⟨⟨⟨hlen, h3⟩, h4⟩, h5⟩ := h
  have hmem : ∀ t ∈ Fields line, t ∈ Fields line := fun _ h => h
  unfold lineRecord
  unfold token at h3 h4 h5 ⊢
  rcases hf : Fields line with _ | ⟨t1, _ | ⟨t2, _ | ⟨t3, _ | ⟨t4, _ | ⟨t5, _ | ⟨t6, _ | ⟨t7, more⟩⟩⟩⟩⟩⟩⟩ <;>
    rw [hf] at hlen <;> simp at hlen
  rw [hf] at hmem h3 h4 h5
  simp only [List.getD_cons_succ, List.getD_cons_zero, Nat.add_one_sub_one, Nat.reduceSub] at h3 h4 h5 ⊢
  have e1 := TrimSpace_field line t1 (by rw [hf]; simp)
  have e2 := TrimSpace_field line t2 (by rw [hf]; simp)
  have e7 := TrimSpace_field line t7 (by rw [hf]; simp)
  have e3 := TrimParseInt64HandlingError_field line t3 (by rw [hf]; simp) h3
  have e4 := TrimParseInt64HandlingError_field line t4 (by rw [hf]; simp) h4
  have e5 := TrimParseInt64HandlingError_field line t5 (by rw [hf]; simp) h5
  simp [parseFilesystemLine, hf, NewIter, Iter.next, e1, e2, e3, e4, e5, e7]

theorem FilesystemsLoop_wellFormed (lines : List GoString) (acc : List model.Filesystem)
    (h : ∀ l ∈ lines, wellFormedLine l = true) :
    FilesystemsLoop lines acc = some ⟨some (acc ++ lines.map lineRecord), none⟩ := by
  induction lines generalizing acc with
  | nil => simp [FilesystemsLoop]
  | cons l ls ih =>
    have hl := parseFilesystemLine_wellFormed l (h l (by simp))
    simp [FilesystemsLoop, hl, ih (acc ++ [lineRecord l]) (fun x hx => h x (by simp [hx]))]

theorem scanLines_eq_inputLines (s : GoString) (h : linesFit s) : scanLines s = inputLines s :=
  scanLines_of_fit s h

/-- Claim C1, as amended: for every input whose N lines each fit the scanner buffer, have at
least seven white-space separated tokens and have decimal 64-bit integers as tokens 3, 4
and 5, `Filesystems` returns no error and exactly N records, in the order of the lines,
record i holding tokens 1, 2 and 7 of line i as text and the values of its tokens 3, 4
and 5; token 6 is in no field. -/
theorem Filesystems_wellFormed (cmdOutput : GoString) (hfit : linesFit cmdOutput)
    (hwf : ∀ l ∈ inputLines cmdOutput, wellFormedLine l = true) :
    Filesystems cmdOutput = some ⟨some ((inputLines cmdOutput).map lineRecord), none⟩ ∧
      ((inputLines cmdOutput).map lineRecord).length = (inputLines cmdOutput).length := by
  refine ⟨?_, by simp⟩
  unfold Filesystems
  rw [scanLines_eq_inputLines cmdOutput hfit, FilesystemsLoop_wellFormed _ _ hwf]
  simp

/-- Witness of `Filesystems_wellFormed`: the line of the specification. -/
theorem Filesystems_wellFormed_witness :
    linesFit "/dev/sda1 ext4 1024 512 512 50% /mnt".toList ∧
    (∀ l ∈ inputLines "/dev/sda1 ext4 1024 512 512 50% /mnt".toList, wellFormedLine l = true) ∧
    Filesystems "/dev/sda1 ext4 1024 512 512 50% /mnt".toList =
      some ⟨some [{ Filesystem := "/dev/sda1".toList, FsType := "ext4".toList, Size := 1024,
                    UsedSpace := 512, AvailableSpace := 512, MountedOn := "/mnt".toList }],
            none⟩ :=
  ⟨by decide, by decide,
    (Filesystems_wellFormed "/dev/sda1 ext4 1024 512 512 50% /mnt".toList
      (by decide) (by decide)).1.trans (by decide)⟩

theorem letters_no_space (n : Nat) : ∀ c ∈ List.replicate n 'a', isSpace c = false := by
  intro c hc
  rw [List.mem_replicate] at hc
  rw [hc.2]
  decide

theorem Fields_letters_then_space (n : Nat) (hn : 0 < n) (rest : GoString) :
    Fields (List.replicate n 'a' ++ ' ' :: rest) = List.replicate n 'a' :: Fields rest := by
  unfold Fields
  rw [fieldsFrom_append_no_space _ _ _ (letters_no_space n)]
  have hsp : isSpace ' ' = true := by decide
  have hne : List.replicate n 'a' ≠ [] := by
    cases n with
    | zero => omega
    | succ m => simp [List.replicate_succ]
  have hn0 : n ≠ 0 := by omega
  simp [fieldsFrom, hsp, hn0]

theorem letters_append_no_newline (n : Nat) (suffix : GoString) (h : '\n' ∉ suffix) :
    '\n' ∉ List.replicate n 'a' ++ suffix := by
  intro hmem
  rcases List.mem_append.1 hmem with h1 | h1
  · rw [List.mem_replicate] at h1
    exact absurd h1.2 (by decide)
  · exact h h1

theorem dropCR_append (a b : GoString) (hb : b ≠ []) (hlast : b.getLast? ≠ some '\r') :
    dropCR (a ++ b) = a ++ b := by
  unfold dropCR
  have : (a ++ b).getLast? = b.getLast? := List.getLast?_append_of_ne_nil a hb
  rw [this, if_neg hlast]

theorem longFilesystemLine_no_newline : '\n' ∉ longFilesystemLine :=
  letters_append_no_newline _ _ (by decide)

theorem longFilesystemLine_scan : scanLines longFilesystemLine = [] := by
  apply scanLines_long_single
  · exact longFilesystemLine_no_newline
  · unfold longFilesystemLine
    rw [byteLen_append, byteLen_replicate_a]
    have : MaxScanTokenSize = 65536 := by decide
    omega

/-- Claim C1 fails as stated: an input of one well-formed line that is longer than the
scanner buffer gives no record (and no error). -/
theorem Filesystems_long_line_no_record :
    inputLines longFilesystemLine = [longFilesystemLine] ∧
    wellFormedLine longFilesystemLine = true ∧
    Filesystems longFilesystemLine = some ⟨some [], none⟩ := by
  refine ⟨?_, ?_, ?_⟩
  · unfold inputLines
    have hne : longFilesystemLine ≠ [] :=
      List.append_ne_nil_of_right_ne_nil _ (by decide)
    rw [rawLines_single longFilesystemLine longFilesystemLine_no_newline hne]
    simp only [List.map_cons, List.map_nil]
    unfold longFilesystemLine
    rw [dropCR_append _ _ (by decide) (by decide)]
  · have hf : Fields longFilesystemLine =
        List.replicate 65536 'a' :: Fields "ext4 1024 512 512 50% /mnt".toList :=
      Fields_letters_then_space 65536 (by omega) _
    have hr : Fields "ext4 1024 512 512 50% /mnt".toList =
        ["ext4".toList, "1024".toList, "512".toList, "512".toList, "50%".toList, "/mnt".toList] := by
      decide
    unfold wellFormedLine token
    rw [hf, hr]
    decide
  · unfold Filesystems
    rw [longFilesystemLine_scan]
    rfl

theorem TrimParseInt64HandlingError_field_error (s t : GoString) (h : t ∈ Fields s)
    (hint : isInt64Text t = false) : TrimParseInt64HandlingError t = .error ⟨t⟩ := by
  unfold TrimParseInt64HandlingError
  rw [TrimSpace_field s t h]
  unfold isInt64Text at hint
  cases hv : decimalValue t with
  | none => rfl
  | some v =>
    simp only [hv] at hint
    simp [hint]

theorem parseFilesystemLine_convError (line : GoString) (h7 : 7 ≤ (Fields line).length)
    (h : numericTokensConvert line = false) : ∃ e, parseFilesystemLine line = .convError e := by
  unfold numericTokensConvert token at h
  rcases hf : Fields line with _ | ⟨t1, _ | ⟨t2, _ | ⟨t3, _ | ⟨t4, _ | ⟨t5, _ | ⟨t6, _ | ⟨t7, more⟩⟩⟩⟩⟩⟩⟩ <;>
    rw [hf] at h7 <;> simp at h7
  rw [hf] at h
  simp only [List.getD_cons_succ, List.getD_cons_zero, Nat.add_one_sub_one, Nat.reduceSub] at h
  have m3 : t3 ∈ Fields line := by rw [hf]; simp
  have m4 : t4 ∈ Fields line := by rw [hf]; simp
  have m5 : t5 ∈ Fields line := by rw [hf]; simp
  cases h3 : isInt64Text t3 with
  | false =>
    have e3 := TrimParseInt64HandlingError_field_error line t3 m3 h3
    exact ⟨⟨t3⟩, by simp [parseFilesystemLine, hf, NewIter, Iter.next, e3]⟩
  | true =>
    have e3 := TrimParseInt64HandlingError_field line t3 m3 h3
    cases h4 : isInt64Text t4 with
    | false =>
      have e4 := TrimParseInt64HandlingError_field_error line t4 m4 h4
      exact ⟨⟨t4⟩, by simp [parseFilesystemLine, hf, NewIter, Iter.next, e3, e4]⟩
    | true =>
      have e4 := TrimParseInt64HandlingError_field line t4 m4 h4
      cases h5 : isInt64Text t5 with
      | false =>
        have e5 := TrimParseInt64HandlingError_field_error line t5 m5 h5
        exact ⟨⟨t5⟩, by simp [parseFilesystemLine, hf, NewIter, Iter.next, e3, e4, e5]⟩
      | true => simp [h3, h4, h5] at h

theorem wellFormedLine_iff (line : GoString) (h7 : 7 ≤ (Fields line).length) :
    wellFormedLine line = numericTokensConvert line := by
  simp [wellFormedLine, numericTokensConvert, h7, Bool.and_assoc]

theorem FilesystemsLoop_total (lines : List GoString) (acc : List model.Filesystem)
    (h7 : ∀ l ∈ lines, 7 ≤ (Fields l).length) :
    ((∀ l ∈ lines, numericTokensConvert l = true) ∧
        FilesystemsLoop lines acc = some ⟨some (acc ++ lines.map lineRecord), none⟩) ∨
      ((∃ l ∈ lines, numericTokensConvert l = false) ∧
        ∃ e, FilesystemsLoop lines acc = some ⟨none, some e⟩) := by
  induction lines generalizing acc with
  | nil => left; simp [FilesystemsLoop]
  | cons l ls ih =>
    have hl7 := h7 l (by simp)
    cases hc : numericTokensConvert l with
    | false =>
      right
      obtain ⟨e, he⟩ := parseFilesystemLine_convError l hl7 hc
      exact ⟨⟨l, by simp, hc⟩, e, by simp [FilesystemsLoop, he]⟩
    | true =>
      have hrec := parseFilesystemLine_wellFormed l (by rw [wellFormedLine_iff l hl7]; exact hc)
      rcases ih (acc ++ [lineRecord l]) (fun x hx => h7 x (by simp [hx])) with ⟨hall, hres⟩ | ⟨⟨x, hx, hbad⟩, e, hres⟩
      · left
        refine ⟨?_, by simp [FilesystemsLoop, hrec, hres]⟩
        intro x hx
        rcases List.mem_cons.1 hx with rfl | hx
        · exact hc
        · exact hall x hx
      · right
        exact ⟨⟨x, by simp [hx], hbad⟩, e, by simp [FilesystemsLoop, hrec, hres]⟩

theorem FilesystemsLoop_error_nil (lines : List GoString) (acc : List model.Filesystem)
    (r : FilesystemsResult) (h : FilesystemsLoop lines acc = some r) (herr : r.err ≠ none) :
    r.filesystems = none := by
  induction lines generalizing acc with
  | nil =>
    simp only [FilesystemsLoop, Option.some.injEq] at h
    subst h
    exact absurd rfl herr
  | cons l ls ih =>
    rw [FilesystemsLoop] at h
    cases hp : parseFilesystemLine l with
    | exhausted => simp [hp] at h
    | convError e =>
      simp only [hp, Option.some.injEq] at h
      subst h
      rfl
    | record fs =>
      simp only [hp] at h
      exact ih _ h

/-- Claim C2, as amended: whenever `Filesystems` returns an error, the record list it
returns is nil; and for every input whose lines each fit the scanner buffer and have at
least seven tokens, `Filesystems` returns a result, which is an error if and only if some
line has a token 3, 4 or 5 that does not convert to an integer, and which, when it is no
error, holds the record of every line, so that it is never a partial list. -/
theorem Filesystems_error_iff (cmdOutput : GoString) :
    (∀ r, Filesystems cmdOutput = some r → r.err ≠ none → r.filesystems = none) ∧
    (linesFit cmdOutput → (∀ l ∈ inputLines cmdOutput, 7 ≤ (Fields l).length) →
      ∃ r, Filesystems cmdOutput = some r ∧
        (r.err ≠ none ↔ ∃ l ∈ inputLines cmdOutput, numericTokensConvert l = false) ∧
        (r.err = none → r.filesystems = some ((inputLines cmdOutput).map lineRecord))) := by
  refine ⟨fun r h herr => FilesystemsLoop_error_nil _ _ r h herr, ?_⟩
  intro hfit h7
  unfold Filesystems
  rw [scanLines_eq_inputLines cmdOutput hfit]
  rcases FilesystemsLoop_total (inputLines cmdOutput) [] h7 with ⟨hall, hres⟩ | ⟨hbad, e, hres⟩
  · refine ⟨_, hres, ?_, ?_⟩
    · constructor
      · intro h; exact absurd rfl h
      · rintro ⟨l, hl, hb⟩
        rw [hall l hl] at hb
        exact absurd hb (by decide)
    · intro _; simp
  · refine ⟨_, hres, ?_, ?_⟩
    · constructor
      · intro _; exact hbad
      · intro _; simp
    · intro h; simp at h

/-- Witness of `Filesystems_error_iff`: a good line followed by a line with a bad size
gives an error that names the token, and a nil list. -/
theorem Filesystems_error_iff_witness :
    linesFit "/dev/sda1 ext4 1024 512 512 50% /mnt\n/dev/sdb1 ext4 10x 5 5 50% /srv".toList ∧
    (∀ l ∈ inputLines "/dev/sda1 ext4 1024 512 512 50% /mnt\n/dev/sdb1 ext4 10x 5 5 50% /srv".toList,
      7 ≤ (Fields l).length) ∧
    Filesystems "/dev/sda1 ext4 1024 512 512 50% /mnt\n/dev/sdb1 ext4 10x 5 5 50% /srv".toList =
      some ⟨none, some ⟨"10x".toList⟩⟩ ∧
    ∃ r, Filesystems "/dev/sda1 ext4 1024 512 512 50% /mnt\n/dev/sdb1 ext4 10x 5 5 50% /srv".toList
        = some r ∧
      (r.err ≠ none ↔
        ∃ l ∈ inputLines "/dev/sda1 ext4 1024 512 512 50% /mnt\n/dev/sdb1 ext4 10x 5 5 50% /srv".toList,
          numericTokensConvert l = false) ∧
      (r.err = none → r.filesystems = some
        ((inputLines "/dev/sda1 ext4 1024 512 512 50% /mnt\n/dev/sdb1 ext4 10x 5 5 50% /srv".toList).map
          lineRecord)) :=
  ⟨by decide, by decide, by decide,
    (Filesystems_error_iff
      "/dev/sda1 ext4 1024 512 512 50% /mnt\n/dev/sdb1 ext4 10x 5 5 50% /srv".toList).2
      (by decide) (by decide)⟩

theorem longThenBadSize_scan : scanLines longThenBadSize = [] := by
  apply scanLines_long
  · intro h
    rw [List.mem_replicate] at h
    exact absurd h.2 (by decide)
  · rw [byteLen_replicate_a]
    decide

/-- Claim C2 fails as stated: the second line of this input has a size column that does
not convert, and `Filesystems` returns no error (with an empty list), because the first
line is longer than the scanner buffer. -/
theorem Filesystems_bad_size_no_error :
    (∃ l ∈ inputLines longThenBadSize, isInt64Text (token l 3) = false) ∧
    Filesystems longThenBadSize = some ⟨some [], none⟩ := by
  constructor
  · refine ⟨"/dev/sda1 ext4 x 512 512 50% /mnt".toList, ?_, by decide⟩
    unfold inputLines longThenBadSize
    rw [rawLines_append_newline _ _ (by
      intro h
      rw [List.mem_replicate] at h
      exact absurd h.2 (by decide))]
    rw [List.map_cons]
    refine List.mem_cons_of_mem _ ?_
    decide
  · unfold Filesystems
    rw [longThenBadSize_scan]
    rfl

theorem keyValueLoop_lookup_none (lines : List GoString) (data : GoMap) (key : GoString)
    (hdata : data.lookup key = none)
    (hlines : ∀ line ∈ lines, ∀ v, splitKeyValue line ≠ some (key, v)) :
    (keyValueLoop lines data).lookup key = none := by
  induction lines generalizing data with
  | nil => simpa [keyValueLoop] using hdata
  | cons l ls ih =>
    have hls : ∀ line ∈ ls, ∀ v, splitKeyValue line ≠ some (key, v) :=
      fun line hl => hlines line (by simp [hl])
    unfold keyValueLoop
    cases hkv : splitKeyValue l with
    | none => exact ih data hdata hls
    | some kv =>
      obtain ⟨k, v⟩ := kv
      have hk : k ≠ key := by
        rintro rfl
        exact hlines l (by simp) v hkv
      refine ih ((k, v) :: data) ?_ hls
      have hbeq : (key == k) = false := by
        simpa using fun e : key = k => hk e.symm
      simp [List.lookup, hbeq, hdata]

theorem get_of_not_hasKey (cmdOutput key : GoString) (h : ¬ hasKey cmdOutput key) :
    (parseKeyValueColonSeparated cmdOutput).get key = [] := by
  have hnone : (parseKeyValueColonSeparated cmdOutput).lookup key = none := by
    unfold parseKeyValueColonSeparated
    refine keyValueLoop_lookup_none (scanLines cmdOutput) [] key rfl ?_
    intro line hl v hv
    exact h ⟨line, hl, by rw [hv]; rfl⟩
  simp [GoMap.get, hnone]

theorem getLast?_cons_eq (v : GoString) (vs : List GoString) :
    (v :: vs).getLast? = some (vs.getLast?.getD v) := by
  cases vs with
  | nil => rfl
  | cons x xs =>
    rw [List.getLast?_cons_cons]
    cases h : (x :: xs).getLast? with
    | none => simp at h
    | some y => rfl

theorem keyValueLoop_lookup (lines : List GoString) (data : GoMap) (key : GoString) :
    (keyValueLoop lines data).lookup key =
      ((lines.filterMap (valueFor key)).getLast?).or (data.lookup key) := by
  induction lines generalizing data with
  | nil => simp [keyValueLoop]
  | cons l ls ih =>
    unfold keyValueLoop
    cases hkv : splitKeyValue l with
    | none =>
      have hv : valueFor key l = none := by simp [valueFor, hkv]
      rw [List.filterMap_cons_none hv]
      exact ih data
    | some kv =>
      obtain ⟨k, v⟩ := kv
      rw [ih ((k, v) :: data)]
      by_cases hk : k = key
      · have hv : valueFor key l = some v := by simp [valueFor, hkv, hk]
        have hbeq : (key == k) = true := by simp [hk]
        rw [List.filterMap_cons_some hv, getLast?_cons_eq]
        cases (List.filterMap (valueFor key) ls).getLast? with
        | none => simp [List.lookup, hbeq]
        | some y => simp
      · have hv : valueFor key l = none := by simp [valueFor, hkv, hk]
        have hbeq : (key == k) = false := by
          simpa using fun e : key = k => hk e.symm
        rw [List.filterMap_cons_none hv]
        simp [List.lookup, hbeq]

theorem lookup_eq_lastValue (cmdOutput key : GoString) :
    (parseKeyValueColonSeparated cmdOutput).lookup key = lastValue cmdOutput key := by
  unfold parseKeyValueColonSeparated lastValue
  rw [keyValueLoop_lookup]
  simp

theorem get_of_lastValue (cmdOutput key v : GoString) (h : lastValue cmdOutput key = some v) :
    (parseKeyValueColonSeparated cmdOutput).get key = v := by
  rw [← lookup_eq_lastValue] at h
  simp [GoMap.get, h]

theorem textFieldOf_get (cmdOutput key : GoString) :
    textFieldOf cmdOutput key (TrimSpace ((parseKeyValueColonSeparated cmdOutput).get key)) := by
  constructor
  · intro h
    rw [get_of_not_hasKey cmdOutput key h]
    rfl
  · intro v h
    rw [get_of_lastValue cmdOutput key v h]

theorem intFieldOf_get (cmdOutput key : GoString) :
    intFieldOf cmdOutput key (TrimParseInt ((parseKeyValueColonSeparated cmdOutput).get key)) := by
  constructor
  · intro h
    rw [get_of_not_hasKey cmdOutput key h]
    rfl
  · intro v h
    rw [get_of_lastValue cmdOutput key v h]

theorem floatFieldOf_get {F : Type} (TrimParseFloat64 : GoString → F) (zero : F)
    (hzero : TrimParseFloat64 [] = zero) (cmdOutput key : GoString) :
    floatFieldOf TrimParseFloat64 zero cmdOutput key
      (TrimParseFloat64 ((parseKeyValueColonSeparated cmdOutput).get key)) := by
  constructor
  · intro h
    rw [get_of_not_hasKey cmdOutput key h, hzero]
  · intro v h
    rw [get_of_lastValue cmdOutput key v h]

/-- Claim C3: for every key/value input, `Host` returns a record (it is a total function
with no error result) in which each of the sixteen fields depends on the lines of its own
key only: a field whose key no line of the input gives holds the zero value of its type
(the empty string, 0, or the floating-point zero), and a field whose key is present holds
the conversion of the last value of that key, whatever other keys are absent. The
floating-point converter is a parameter that gives `zero` on the empty text. -/
theorem Host_missing_keys {F : Type} (TrimParseFloat64 : GoString → F) (zero : F)
    (hzero : TrimParseFloat64 [] = zero) (cmdOutput : GoString) :
    textFieldOf cmdOutput "Hostname".toList (Host TrimParseFloat64 cmdOutput).Hostname ∧
    textFieldOf cmdOutput "CPUModel".toList (Host TrimParseFloat64 cmdOutput).CPUModel ∧
    textFieldOf cmdOutput "CPUFrequency".toList (Host TrimParseFloat64 cmdOutput).CPUFrequency ∧
    intFieldOf cmdOutput "CPUSockets".toList (Host TrimParseFloat64 cmdOutput).CPUSockets ∧
    intFieldOf cmdOutput "CPUCores".toList (Host TrimParseFloat64 cmdOutput).CPUCores ∧
    intFieldOf cmdOutput "CPUThreads".toList (Host TrimParseFloat64 cmdOutput).CPUThreads ∧
    intFieldOf cmdOutput "ThreadsPerCore".toList (Host TrimParseFloat64 cmdOutput).ThreadsPerCore ∧
    intFieldOf cmdOutput "CoresPerSocket".toList (Host TrimParseFloat64 cmdOutput).CoresPerSocket ∧
    textFieldOf cmdOutput "HardwareAbstraction".toList
      (Host TrimParseFloat64 cmdOutput).HardwareAbstraction ∧
    textFieldOf cmdOutput "HardwareAbstractionTechnology".toList
      (Host TrimParseFloat64 cmdOutput).HardwareAbstractionTechnology ∧
    textFieldOf cmdOutput "Kernel".toList (Host TrimParseFloat64 cmdOutput).Kernel ∧
    textFieldOf cmdOutput "KernelVersion".toList (Host TrimParseFloat64 cmdOutput).KernelVersion ∧
    textFieldOf cmdOutput "OS".toList (Host TrimParseFloat64 cmdOutput).OS ∧
    textFieldOf cmdOutput "OSVersion".toList (Host TrimParseFloat64 cmdOutput).OSVersion ∧
    floatFieldOf TrimParseFloat64 zero cmdOutput "MemoryTotal".toList
      (Host TrimParseFloat64 cmdOutput).MemoryTotal ∧
    floatFieldOf TrimParseFloat64 zero cmdOutput "SwapTotal".toList
      (Host TrimParseFloat64 cmdOutput).SwapTotal :=
  ⟨textFieldOf_get _ _, textFieldOf_get _ _, textFieldOf_get _ _, intFieldOf_get _ _,
    intFieldOf_get _ _, intFieldOf_get _ _, intFieldOf_get _ _, intFieldOf_get _ _,
    textFieldOf_get _ _, textFieldOf_get _ _, textFieldOf_get _ _, textFieldOf_get _ _,
    textFieldOf_get _ _, textFieldOf_get _ _,
    floatFieldOf_get _ _ hzero _ _, floatFieldOf_get _ _ hzero _ _⟩

/-- Witness of `Host_missing_keys`, with the integer converter standing for the
floating-point one: the absent `CPUCores` is 0 and the present `Hostname` is kept. -/
theorem Host_missing_keys_witness :
    TrimParseInt [] = 0 ∧ ¬ hasKey hostSample "CPUCores".toList ∧
    (Host TrimParseInt hostSample).CPUCores = 0 ∧
    (Host TrimParseInt hostSample).Hostname = "h1".toList :=
  ⟨rfl, by decide,
    (Host_missing_keys TrimParseInt 0 rfl hostSample).2.2.2.2.1.1 (by decide),
    ((Host_missing_keys TrimParseInt 0 rfl hostSample).1.2 " h1 ".toList (by decide)).trans
      (by decide)⟩

theorem vmHeader_scan (rest : GoString) :
    scanLines (vmHeader ++ '\n' :: rest) = vmHeader :: scanLines rest := by
  rw [scanLines_cons vmHeader rest (by decide) (by decide)]
  have : dropCR vmHeader = vmHeader := by decide
  rw [this]

/-- Claim C4: for every text `rest`, `VmwareVMs` and `OvmVMs` give on the input made of
the line `Cluster,Name,guestHostname` followed by `rest` what they give on `rest`: the
header line contributes no record. -/
theorem header_line_skipped (parseBool : GoString → Bool) (rest : GoString) :
    VmwareVMs (vmHeader ++ '\n' :: rest) = VmwareVMs rest ∧
      OvmVMs parseBool (vmHeader ++ '\n' :: rest) = OvmVMs parseBool rest := by
  have hsplit : Split vmHeader ',' = ["Cluster".toList, "Name".toList, "guestHostname".toList] := by
    decide
  constructor
  · unfold VmwareVMs
    rw [vmHeader_scan, VmwareVMsLoop]
    have : isHeader (Split vmHeader ',') = true := by decide
    simp only [this, if_true]
  · unfold OvmVMs
    rw [vmHeader_scan, OvmVMsLoop]
    have : (Split vmHeader ',').length < 5 := by decide
    simp only [this, if_true]

/-- Claim C5 fails on the code: on a three-column line that is not the header, on a
two-column line and on an empty line, `VmwareVMs` panics with an index out of range
instead of dropping the line. -/
theorem VmwareVMs_short_line_panics :
    VmwareVMs "c1,vm1,h1".toList = none ∧ VmwareVMs "c1,vm1".toList = none ∧
      VmwareVMs "\n".toList = none ∧
      VmwareVMs "c1,vm1,h1,host1\nc2,vm2,h2\nc3,vm3,h3,host3".toList = none := by
  decide

theorem Split_append_sep (l rest : GoString) (sep : Char) (h : sep ∉ l) :
    Split (l ++ sep :: rest) sep = l :: Split rest sep := by
  induction l with
  | nil => simp [Split]
  | cons c cs ih =>
    have hc : c ≠ sep := fun e => h (by simp [e])
    have hcs : sep ∉ cs := fun e => h (by simp [e])
    simp [Split, hc, ih hcs]

theorem OvmVMsLoop_line (parseBool : GoString → Bool) (line : GoString) (rest : List GoString)
    (vms : List model.VMInfo) :
    OvmVMsLoop parseBool (line :: rest) vms =
      OvmVMsLoop parseBool rest
        (if hasFiveColumns line then vms ++ [ovmRecord parseBool line] else vms) := by
  unfold hasFiveColumns ovmRecord column columns
  rw [OvmVMsLoop]
  rcases hs : Split line ',' with _ | ⟨c0, _ | ⟨c1, _ | ⟨c2, _ | ⟨c3, _ | ⟨c4, more⟩⟩⟩⟩⟩ <;> simp

theorem OvmVMsLoop_eq (parseBool : GoString → Bool) (lines : List GoString)
    (vms : List model.VMInfo) :
    OvmVMsLoop parseBool lines vms =
      some (vms ++ (lines.filter hasFiveColumns).map (ovmRecord parseBool)) := by
  induction lines generalizing vms with
  | nil => simp [OvmVMsLoop]
  | cons l ls ih =>
    rw [OvmVMsLoop_line, ih]
    cases h : hasFiveColumns l <;> simp [List.filter_cons, h]

theorem ovmRow_ovmRecord (parseBool : GoString → Bool) (line : GoString) :
    ovmRow line (ovmRecord parseBool line) := by
  unfold ovmRow ovmRecord defaultHostname
  split <;> simp

/-- Claim C6, as amended: for every input `OvmVMs` returns a list of records without
failing; when every line of the input fits the scanner buffer, the list has exactly one
record per line of at least five comma-separated columns, in the order of the lines, and
none for the other lines, and the record of a kept line has `ClusterName`, `Name` and
`PhysicalHost` equal to the trimmed columns 1, 2 and 5. -/
theorem OvmVMs_records (parseBool : GoString → Bool) (cmdOutput : GoString) :
    ∃ vms, OvmVMs parseBool cmdOutput = some vms ∧
      (linesFit cmdOutput →
        List.Forall₂ ovmRow ((inputLines cmdOutput).filter hasFiveColumns) vms) := by
  refine ⟨_, OvmVMsLoop_eq parseBool (scanLines cmdOutput) [], ?_⟩
  intro hfit
  rw [scanLines_eq_inputLines cmdOutput hfit, List.nil_append, List.forall₂_map_right_iff,
    List.forall₂_same]
  intro line _
  exact ovmRow_ovmRecord parseBool line

/-- Witness of `OvmVMs_records`: a header, a five-column line and a four-column line. -/
theorem OvmVMs_records_witness :
    linesFit "Cluster,Name,guestHostname\nc1, vm1 ,,Y,host1\nc2,vm2,h2,host2".toList ∧
    ∃ vms, OvmVMs parseBoolY "Cluster,Name,guestHostname\nc1, vm1 ,,Y,host1\nc2,vm2,h2,host2".toList
        = some vms ∧
      List.Forall₂ ovmRow
        ((inputLines "Cluster,Name,guestHostname\nc1, vm1 ,,Y,host1\nc2,vm2,h2,host2".toList).filter
          hasFiveColumns) vms :=
  ⟨by decide,
    (OvmVMs_records parseBoolY
      "Cluster,Name,guestHostname\nc1, vm1 ,,Y,host1\nc2,vm2,h2,host2".toList).imp
      fun _ h => ⟨h.1, h.2 (by decide)⟩⟩

theorem longVmLine_no_newline : '\n' ∉ longVmLine :=
  letters_append_no_newline _ _ (by decide)

/-- Claim C6 fails as stated: an input of one line of five columns that is longer than
the scanner buffer gives no record. -/
theorem OvmVMs_long_line_no_record :
    inputLines longVmLine = [longVmLine] ∧ (columns longVmLine).length = 5 ∧
      OvmVMs parseBoolY longVmLine = some [] := by
  refine ⟨?_, ?_, ?_⟩
  · unfold inputLines
    have hne : longVmLine ≠ [] := List.append_ne_nil_of_right_ne_nil _ (by decide)
    rw [rawLines_single longVmLine longVmLine_no_newline hne]
    simp only [List.map_cons, List.map_nil]
    unfold longVmLine
    rw [dropCR_append _ _ (by decide) (by decide)]
  · have hs : columns longVmLine = List.replicate 65536 'a' :: Split "vm1,h1,Y,host1".toList ',' :=
      Split_append_sep _ _ ',' (by
        intro h
        rw [List.mem_replicate] at h
        exact absurd h.2 (by decide))
    rw [hs]
    decide
  · have hscan : scanLines longVmLine = [] := by
      apply scanLines_long_single _ longVmLine_no_newline
      unfold longVmLine
      rw [byteLen_append, byteLen_replicate_a]
      have : MaxScanTokenSize = 65536 := by decide
      omega
    unfold OvmVMs
    rw [hscan]
    rfl

theorem scanLines_subset_inputLines (s : GoString) : ∀ l ∈ scanLines s, l ∈ inputLines s := by
  intro l hl
  unfold scanLines at hl
  unfold inputLines
  obtain ⟨raw, hraw, rfl⟩ := List.mem_map.1 hl
  exact List.mem_map.2 ⟨raw, List.takeWhile_subset _ hraw, rfl⟩

theorem hostnameRule_defaultHostname (line : GoString) (vm : model.VMInfo)
    (hname : vm.Name = column line 2) (hhost : vm.Hostname = column line 3) :
    hostnameRule line (defaultHostname vm) := by
  unfold hostnameRule defaultHostname
  by_cases h : vm.Hostname = []
  · have h3 : column line 3 = [] := by rw [← hhost]; exact h
    simp [h, h3, hname]
  · have h3 : ¬ column line 3 = [] := by rw [← hhost]; exact h
    simp [h, h3, hname, hhost]

theorem hostnameRule_empty (line : GoString) (vm : model.VMInfo) (h : hostnameRule line vm)
    (hempty : vm.Hostname = []) : vm.Name = [] := by
  obtain ⟨_, hh⟩ := h
  by_cases h3 : column line 3 = []
  · rw [if_pos h3] at hh
    rw [← hh]; exact hempty
  · rw [if_neg h3] at hh
    rw [hh] at hempty
    exact absurd hempty h3

theorem VmwareVMsLoop_line (line : GoString) (rest : List GoString) (vms : List model.VMInfo) :
    VmwareVMsLoop (line :: rest) vms =
      if isDataLine line then
        if hasFourColumns line then VmwareVMsLoop rest (vms ++ [vmwareRecord line]) else none
      else VmwareVMsLoop rest vms := by
  unfold isDataLine hasFourColumns vmwareRecord column columns
  rw [VmwareVMsLoop]
  by_cases hh : isHeader (Split line ',') = true
  · simp [hh]
  · simp only [hh, Bool.not_eq_true, Bool.not_false, if_true]
    rcases hs : Split line ',' with _ | ⟨c0, _ | ⟨c1, _ | ⟨c2, _ | ⟨c3, more⟩⟩⟩⟩ <;> simp

theorem VmwareVMsLoop_some (lines : List GoString) (acc vms : List model.VMInfo)
    (h : VmwareVMsLoop lines acc = some vms) :
    vms = acc ++ (lines.filter isDataLine).map vmwareRecord := by
  induction lines generalizing acc with
  | nil =>
    simp only [VmwareVMsLoop, Option.some.injEq] at h
    simp [h]
  | cons l ls ih =>
    rw [VmwareVMsLoop_line] at h
    cases hd : isDataLine l with
    | false =>
      simp only [hd, Bool.false_eq_true, if_false] at h
      simp [List.filter_cons, hd, ih acc h]
    | true =>
      cases h4 : hasFourColumns l with
      | false => simp [hd, h4] at h
      | true =>
        simp only [hd, h4, if_true] at h
        simp [List.filter_cons, hd, ih _ h]

theorem VmwareVMsLoop_total (lines : List GoString) (acc : List model.VMInfo)
    (h : ∀ l ∈ lines, isDataLine l = true → hasFourColumns l = true) :
    VmwareVMsLoop lines acc = some (acc ++ (lines.filter isDataLine).map vmwareRecord) := by
  induction lines generalizing acc with
  | nil => simp [VmwareVMsLoop]
  | cons l ls ih =>
    rw [VmwareVMsLoop_line]
    have hls : ∀ x ∈ ls, isDataLine x = true → hasFourColumns x = true :=
      fun x hx => h x (by simp [hx])
    cases hd : isDataLine l with
    | false => simp [List.filter_cons, hd, ih acc hls]
    | true => simp [List.filter_cons, hd, h l (by simp) hd, ih _ hls]

theorem hostnameRule_vmwareRecord (line : GoString) : hostnameRule line (vmwareRecord line) :=
  hostnameRule_defaultHostname line _ rfl rfl

theorem hostnameRule_ovmRecord (parseBool : GoString → Bool) (line : GoString) :
    hostnameRule line (ovmRecord parseBool line) :=
  hostnameRule_defaultHostname line _ rfl rfl

theorem scanLines_prefix_inputLines (s : GoString) : scanLines s <+: inputLines s := by
  unfold scanLines inputLines
  exact (List.takeWhile_prefix _).map _

theorem forall₂_rule_empty (lines : List GoString) (vms : List model.VMInfo)
    (h : List.Forall₂ hostnameRule lines vms) :
    ∀ vm ∈ vms, vm.Hostname = [] → vm.Name = [] := by
  induction h with
  | nil => intro vm hvm; cases hvm
  | cons hrule _ ih =>
    intro vm hvm
    rcases List.mem_cons.1 hvm with rfl | hvm
    · exact hostnameRule_empty _ _ hrule
    · exact ih vm hvm

/-- Claim C7: the lines that the scanner reads are the first lines of the input, in
order (all of them when every line fits the buffer), and the records of either parser
stand in that order for the lines that make a record: those that are not the header, for `VmwareVMs`, which returns whenever each of
them has four columns, and those of at least five columns, for `OvmVMs`, which always
returns. Each record has, from its own line, `Name` equal to the trimmed second column
and `Hostname` equal to the trimmed third column when that is not empty, and to `Name`
otherwise; so a returned record has an empty `Hostname` only if its `Name` is empty too. -/
theorem hostname_defaults_to_name (parseBool : GoString → Bool) (cmdOutput : GoString) :
    scanLines cmdOutput <+: inputLines cmdOutput ∧
    (linesFit cmdOutput → scanLines cmdOutput = inputLines cmdOutput) ∧
    (∀ vms, VmwareVMs cmdOutput = some vms →
      List.Forall₂ hostnameRule ((scanLines cmdOutput).filter isDataLine) vms ∧
        ∀ vm ∈ vms, vm.Hostname = [] → vm.Name = []) ∧
    ((∀ l ∈ scanLines cmdOutput, isDataLine l = true → hasFourColumns l = true) →
      ∃ vms, VmwareVMs cmdOutput = some vms) ∧
    (∃ vms, OvmVMs parseBool cmdOutput = some vms ∧
      List.Forall₂ hostnameRule ((scanLines cmdOutput).filter hasFiveColumns) vms ∧
        ∀ vm ∈ vms, vm.Hostname = [] → vm.Name = []) := by
  have hvm : List.Forall₂ hostnameRule ((scanLines cmdOutput).filter isDataLine)
      (((scanLines cmdOutput).filter isDataLine).map vmwareRecord) := by
    rw [List.forall₂_map_right_iff, List.forall₂_same]
    exact fun line _ => hostnameRule_vmwareRecord line
  have hovm : List.Forall₂ hostnameRule ((scanLines cmdOutput).filter hasFiveColumns)
      (((scanLines cmdOutput).filter hasFiveColumns).map (ovmRecord parseBool)) := by
    rw [List.forall₂_map_right_iff, List.forall₂_same]
    exact fun line _ => hostnameRule_ovmRecord parseBool line
  refine ⟨scanLines_prefix_inputLines cmdOutput, scanLines_eq_inputLines cmdOutput, ?_, ?_, ?_⟩
  · intro vms h
    have hvms := VmwareVMsLoop_some (scanLines cmdOutput) [] vms h
    rw [List.nil_append] at hvms
    subst hvms
    exact ⟨hvm, forall₂_rule_empty _ _ hvm⟩
  · intro h
    exact ⟨_, VmwareVMsLoop_total (scanLines cmdOutput) [] h⟩
  · refine ⟨_, OvmVMsLoop_eq parseBool (scanLines cmdOutput) [], ?_⟩
    rw [List.nil_append]
    exact ⟨hovm, forall₂_rule_empty _ _ hovm⟩

/-- Witness of `hostname_defaults_to_name`: for both parsers, two lines with the same
name, of which the first has no host name and takes the name, and the second keeps its
host name. -/
theorem hostname_defaults_to_name_witness :
    VmwareVMs vmwareSample =
      some [{ ClusterName := "c1".toList, Name := "vm".toList, Hostname := "vm".toList,
              CappedCPU := false, PhysicalHost := "p1".toList },
            { ClusterName := "c2".toList, Name := "vm".toList, Hostname := "h2".toList,
              CappedCPU := false, PhysicalHost := "p2".toList }] ∧
    List.Forall₂ hostnameRule ((scanLines vmwareSample).filter isDataLine)
      [{ ClusterName := "c1".toList, Name := "vm".toList, Hostname := "vm".toList,
         CappedCPU := false, PhysicalHost := "p1".toList },
       { ClusterName := "c2".toList, Name := "vm".toList, Hostname := "h2".toList,
         CappedCPU := false, PhysicalHost := "p2".toList }] ∧
    (∃ vms, VmwareVMs vmwareSample = some vms) ∧
    OvmVMs parseBoolY ovmSample =
      some [{ ClusterName := "c1".toList, Name := "vm".toList, Hostname := "vm".toList,
              CappedCPU := true, PhysicalHost := "p1".toList },
            { ClusterName := "c2".toList, Name := "vm".toList, Hostname := "h2".toList,
              CappedCPU := false, PhysicalHost := "p2".toList }] ∧
    ∃ vms, OvmVMs parseBoolY ovmSample = some vms ∧
      List.Forall₂ hostnameRule ((scanLines ovmSample).filter hasFiveColumns) vms ∧
        ∀ vm ∈ vms, vm.Hostname = [] → vm.Name = [] :=
  ⟨by decide,
    ((hostname_defaults_to_name parseBoolY vmwareSample).2.2.1 _ (by decide)).1,
    (hostname_defaults_to_name parseBoolY vmwareSample).2.2.2.1 (by decide),
    by decide,
    (hostname_defaults_to_name parseBoolY ovmSample).2.2.2.2⟩

theorem writeHostDataOnTmpFile_no_outcome {Doc : Type} (w : World Doc) (data : Doc) :
    (writeHostDataOnTmpFile w data).filterMap outcomeOf = [] := by
  unfold writeHostDataOnTmpFile
  dsimp only
  split
  · split <;> rfl
  · rfl

theorem writeHostDataOnTmpFile_no_request {Doc : Type} (w : World Doc) (data : Doc) :
    (writeHostDataOnTmpFile w data).filterMap requestOf = [] := by
  unfold writeHostDataOnTmpFile
  dsimp only
  split
  · split <;> rfl
  · rfl

theorem sendDataStart_no_outcome {Doc : Type} (w : World Doc) (data : Doc)
    (configuration : Configuration) :
    (sendDataStart w data configuration).filterMap outcomeOf = [] := by
  unfold sendDataStart
  rw [List.filterMap_append]
  cases configuration.Verbose
  · rfl
  · simp only [if_true, writeHostDataOnTmpFile_no_outcome]
    rfl

theorem sendDataStart_no_request {Doc : Type} (w : World Doc) (data : Doc)
    (configuration : Configuration) :
    (sendDataStart w data configuration).filterMap requestOf = [] := by
  unfold sendDataStart
  rw [List.filterMap_append]
  cases configuration.Verbose
  · rfl
  · simp only [if_true, writeHostDataOnTmpFile_no_request]
    rfl

theorem NewRequest_valid {Doc : Type} (w : World Doc) (data : Doc) (configuration : Configuration)
    (hurl : w.URLValid (deliveryURL configuration) = true) :
    w.NewRequest "POST".toList (configuration.DataserviceURL ++ "/hosts".toList) (w.Marshal data) =
      some { Method := "POST".toList, URL := deliveryURL configuration, Body := w.Marshal data,
             Header := [], BasicAuth := none } := by
  unfold World.NewRequest
  unfold deliveryURL at hurl
  rw [if_pos hurl]
  rfl

theorem sendData_valid {Doc : Type} (w : World Doc) (data : Doc) (configuration : Configuration)
    (hurl : w.URLValid (deliveryURL configuration) = true) :
    sendData w data configuration =
      match w.Do (deliveryClient configuration) (deliveryRequest w data configuration) with
      | .error err =>
        { events := sendDataStart w data configuration ++
            [.httpDo (deliveryClient configuration) (deliveryRequest w data configuration),
              .log .Error ["Error sending data: ".toList, err],
              .log .Info ["Sending result: ".toList, "FAILED".toList]],
          termination := .returned }
      | .ok resp =>
        { events := sendDataStart w data configuration ++
            [.httpDo (deliveryClient configuration) (deliveryRequest w data configuration),
              .log .Info ["Response status: ".toList, resp.Status],
              .log .Info ["Sending result: ".toList,
                if resp.StatusCode = 200 then "SUCCESS".toList else "FAILED".toList],
              .closeBody],
          termination := .returned } := by
  unfold sendData
  dsimp only
  rw [NewRequest_valid w data configuration hurl]
  rfl

theorem sendData_invalid {Doc : Type} (w : World Doc) (data : Doc) (configuration : Configuration)
    (hurl : w.URLValid (deliveryURL configuration) = false) :
    sendData w data configuration =
      { events := sendDataStart w data configuration, termination := .panicked } := by
  unfold deliveryURL at hurl
  unfold sendData World.NewRequest
  dsimp only
  rw [hurl]
  rfl

/-- Claim C8, as amended: when a request can be built for the delivery URL, `sendData`
logs exactly one outcome; it is `SUCCESS` if and only if the POST returned a response (no
transport error) whose status code is 200, and `FAILED` for a transport error or any
other status code. -/
theorem sendData_outcome {Doc : Type} (w : World Doc) (data : Doc) (configuration : Configuration)
    (hurl : w.URLValid (deliveryURL configuration) = true) :
    ∃ outcome, loggedOutcomes (sendData w data configuration) = [outcome] ∧
      (outcome = "SUCCESS".toList ↔ answered200 w data configuration) ∧
      (¬ answered200 w data configuration → outcome = "FAILED".toList) := by
  rw [sendData_valid w data configuration hurl]
  unfold answered200 loggedOutcomes
  cases hdo : w.Do (deliveryClient configuration) (deliveryRequest w data configuration) with
  | error err =>
    refine ⟨"FAILED".toList, ?_, ?_, fun _ => rfl⟩
    · simp only [List.filterMap_append, sendDataStart_no_outcome]
      rfl
    · constructor
      · intro h; exact absurd h (by decide)
      · rintro ⟨resp, hresp, _⟩
        cases hresp
  | ok resp =>
    refine ⟨if resp.StatusCode = 200 then "SUCCESS".toList else "FAILED".toList, ?_, ?_, ?_⟩
    · simp only [List.filterMap_append, sendDataStart_no_outcome]
      rfl
    · by_cases hc : resp.StatusCode = 200
      · rw [if_pos hc]
        exact ⟨fun _ => ⟨resp, rfl, hc⟩, fun _ => rfl⟩
      · rw [if_neg hc]
        constructor
        · intro h; exact absurd h (by decide)
        · rintro ⟨resp', hresp, hc'⟩
          cases hresp
          exact absurd hc' hc
    · intro hno
      by_cases hc : resp.StatusCode = 200
      · exact absurd ⟨resp, rfl, hc⟩ hno
      · rw [if_neg hc]

/-- Witness of `sendData_outcome`: a server that answers 200. -/
theorem sendData_outcome_witness :
    (exampleWorld 200).URLValid (deliveryURL (exampleConfiguration "http://ercole")) = true ∧
    ∃ outcome,
      loggedOutcomes (sendData (exampleWorld 200) () (exampleConfiguration "http://ercole")) =
        [outcome] ∧
      (outcome = "SUCCESS".toList ↔
        answered200 (exampleWorld 200) () (exampleConfiguration "http://ercole")) ∧
      (¬ answered200 (exampleWorld 200) () (exampleConfiguration "http://ercole") →
        outcome = "FAILED".toList) :=
  ⟨by decide,
    sendData_outcome (exampleWorld 200) () (exampleConfiguration "http://ercole") (by decide)⟩

/-- Claim C8 fails as stated: a response with status code 201, which is in the 2xx range,
gives the logged outcome `FAILED`. -/
theorem sendData_201_failed :
    (exampleWorld 201).Do (deliveryClient (exampleConfiguration "http://ercole"))
        (deliveryRequest (exampleWorld 201) () (exampleConfiguration "http://ercole")) =
      .ok { Status := "status".toList, StatusCode := 201 } ∧
    loggedOutcomes (sendData (exampleWorld 201) () (exampleConfiguration "http://ercole")) =
      ["FAILED".toList] := by
  constructor
  · rfl
  · decide

/-- Claim C9, as amended: for every document, configuration and result of the transport,
one call of `sendData` calls `client.Do` at most once; when a request can be built for
the delivery URL it calls it exactly once, with a POST to the configured base URL
followed by `/hosts` that carries the serialised document, the content type
`application/json` and the configured basic-auth credentials. -/
theorem sendData_one_request {Doc : Type} (w : World Doc) (data : Doc)
    (configuration : Configuration) :
    (requestsIssued (sendData w data configuration)).length ≤ 1 ∧
      (w.URLValid (deliveryURL configuration) = true →
        ∃ req, requestsIssued (sendData w data configuration) = [req] ∧
          req.Method = "POST".toList ∧
          req.URL = configuration.DataserviceURL ++ "/hosts".toList ∧
          req.Body = w.Marshal data ∧
          req.Header = [("Content-Type".toList, "application/json".toList)] ∧
          req.BasicAuth = some (configuration.AgentUser, configuration.AgentPassword)) := by
  have hvalid : w.URLValid (deliveryURL configuration) = true →
      requestsIssued (sendData w data configuration) = [deliveryRequest w data configuration] := by
    intro hurl
    rw [sendData_valid w data configuration hurl]
    unfold requestsIssued
    cases w.Do (deliveryClient configuration) (deliveryRequest w data configuration) with
    | error err =>
      simp only [List.filterMap_append, sendDataStart_no_request]
      rfl
    | ok resp =>
      simp only [List.filterMap_append, sendDataStart_no_request]
      rfl
  constructor
  · cases hurl : w.URLValid (deliveryURL configuration) with
    | true => rw [hvalid hurl]; exact Nat.le_refl 1
    | false =>
      rw [sendData_invalid w data configuration hurl]
      unfold requestsIssued
      rw [sendDataStart_no_request]
      exact Nat.zero_le 1
  · intro hurl
    exact ⟨deliveryRequest w data configuration, hvalid hurl, rfl, rfl, rfl, rfl, rfl⟩

/-- Witness of `sendData_one_request`: a server that answers 500. -/
theorem sendData_one_request_witness :
    (exampleWorld 500).URLValid (deliveryURL (exampleConfiguration "http://ercole")) = true ∧
    requestsIssued (sendData (exampleWorld 500) () (exampleConfiguration "http://ercole")) =
      [{ Method := "POST".toList, URL := "http://ercole/hosts".toList, Body := "\x7b\x7d".toList,
         Header := [("Content-Type".toList, "application/json".toList)],
         BasicAuth := some ("user".toList, "secret".toList) }] := by
  refine ⟨by decide, ?_⟩
  obtain ⟨req, hreq, hm, hu, hb, hh, ha⟩ :=
    (sendData_one_request (exampleWorld 500) () (exampleConfiguration "http://ercole")).2 (by decide)
  rw [hreq]
  cases req
  simp only at hm hu hb hh ha
  subst hm hu hb hh ha
  rfl

/-- Claim C9 fails as stated: with the base URL `:`, from which no request can be built,
`sendData` issues no request at all. -/
theorem sendData_bad_url_no_request :
    (exampleWorld 200).URLValid (deliveryURL (exampleConfiguration ":")) = false ∧
    requestsIssued (sendData (exampleWorld 200) () (exampleConfiguration ":")) = [] := by
  decide

/-- Claim C10 fails on the code: with the base URL `:`, for which `http.NewRequest`
returns a nil request, `sendData` panics on `req.Header.Add` before it logs any
outcome. -/
theorem sendData_bad_url_panics :
    (sendData (exampleWorld 200) () (exampleConfiguration ":")).termination = .panicked ∧
    loggedOutcomes (sendData (exampleWorld 200) () (exampleConfiguration ":")) = [] := by
  decide

/-! ## The program: startup -/

theorem run_loggers_ok {R : Type} (rt : Runtime R) (fuel : Nat)
    (hc : rt.ConfigLoggerOk = true) (ha : rt.AgentLoggerOk = true) :
    run rt fuel =
      match (doBuildAndSend rt.world rt.BuildData rt.configuration).termination with
      | .panicked => [.cycle 0 (doBuildAndSend rt.world rt.BuildData rt.configuration)]
      | .returned =>
        match RunEvery (jobPeriod rt.configuration) with
        | .error _ =>
          [.cycle 0 (doBuildAndSend rt.world rt.BuildData rt.configuration),
            .fatal (rt.CycleTime 0) "Error scheduling Ercole agent".toList]
        | .ok period =>
          if !rt.TimerOk then
            [.cycle 0 (doBuildAndSend rt.world rt.BuildData rt.configuration),
              .fatal (rt.CycleTime 0) "Error starting Ercole agent scheduler".toList]
          else
            .cycle 0 (doBuildAndSend rt.world rt.BuildData rt.configuration) ::
              (rt.Fires period (rt.CycleTime 0) fuel).map
                (fun t => .cycle t (doBuildAndSend rt.world rt.BuildData rt.configuration)) := by
  unfold run
  simp only [hc, ha, Bool.not_true, Bool.false_eq_true, if_false]

theorem RunEvery_not_positive (period : Int) (h : period ≤ 0) :
    RunEvery period = .error "invalid period".toList := by
  unfold RunEvery
  rw [if_pos h]

theorem RunEvery_positive (period : Int) (h : 0 < period) : RunEvery period = .ok period := by
  unfold RunEvery
  rw [if_neg (by omega)]

/-- A configured period from -2562047 to 0 hours gives a period that is not positive
(there is no wrap-around in that range). -/
theorem jobPeriod_not_positive (configuration : Configuration)
    (h0 : configuration.Period ≤ 0) (hlow : -2562047 ≤ configuration.Period) :
    jobPeriod configuration ≤ 0 := by
  have h63 : (2 : Int) ^ 63 = 9223372036854775808 := by norm_num
  have h64 : (2 : Int) ^ 64 = 18446744073709551616 := by norm_num
  unfold jobPeriod toInt64 Hour
  rw [h63, h64, Int.emod_eq_of_lt (by omega) (by omega)]
  omega

/-- Claim C11, as amended: when both loggers initialise and the period handed to the
scheduler is not positive, so that registering the job fails, exactly one call of
`doBuildAndSend` takes place, the one that `run` makes at startup before it registers the
job; when that call returns, the process then aborts with the fatal error of the
registration, and no scheduled cycle runs. -/
theorem run_period_not_positive {R : Type} (rt : Runtime R) (fuel : Nat)
    (hc : rt.ConfigLoggerOk = true) (ha : rt.AgentLoggerOk = true)
    (hp : jobPeriod rt.configuration ≤ 0) :
    cyclesOf (run rt fuel) = [doBuildAndSend rt.world rt.BuildData rt.configuration] ∧
    cycleTimes (run rt fuel) = [0] ∧
    ((doBuildAndSend rt.world rt.BuildData rt.configuration).termination = .returned →
      run rt fuel =
        [.cycle 0 (doBuildAndSend rt.world rt.BuildData rt.configuration),
          .fatal (rt.CycleTime 0) "Error scheduling Ercole agent".toList]) := by
  rw [run_loggers_ok rt fuel hc ha, RunEvery_not_positive _ hp]
  cases (doBuildAndSend rt.world rt.BuildData rt.configuration).termination with
  | panicked => exact ⟨rfl, rfl, fun h => absurd h (by decide)⟩
  | returned => exact ⟨rfl, rfl, fun _ => rfl⟩

/-- Witness of `run_period_not_positive`: the period 0. -/
theorem run_period_not_positive_witness :
    jobPeriod (exampleRuntime 0).configuration ≤ 0 ∧
    cycleTimes (run (exampleRuntime 0) 3) = [0] ∧
    (run (exampleRuntime 0) 3).length = 2 :=
  ⟨by decide,
    (run_period_not_positive (exampleRuntime 0) 3 rfl rfl (by decide)).2.1,
    by rw [(run_period_not_positive (exampleRuntime 0) 3 rfl rfl (by decide)).2.2 (by decide)]; rfl⟩

/-- Claim C11 fails as stated: with the period 0 the process ends with the fatal exit,
and before it one call of `doBuildAndSend` has run and has issued one HTTP request. -/
theorem run_period_zero_cycle_before_fatal :
    jobPeriod (exampleRuntime 0).configuration ≤ 0 ∧
    endsFatal (run (exampleRuntime 0) 0) = true ∧
    (cyclesOf (beforeFatal (run (exampleRuntime 0) 0))).length = 1 ∧
    ((cyclesOf (beforeFatal (run (exampleRuntime 0) 0))).map
      (fun r => (requestsIssued r).length)).sum = 1 := by
  decide

theorem fireTime_recorded (period now : Int) (hp : 0 < period) :
    fireTime (some (RecordFired period now)) now = now + period := by
  unfold fireTime RecordFired
  simp only
  rw [if_neg (by omega)]

theorem schedulerFires_chain (period : Int) (cycleTime : Nat → Nat) (hp : 0 < period)
    (fuel k : Nat) (now last : Int) (h : last ≤ now) :
    List.Chain (fun a b => a + period ≤ b) last
      (schedulerFires period cycleTime fuel k (some (RecordFired period now)) now) := by
  induction fuel generalizing k now last with
  | zero => exact List.Chain.nil
  | succ n ih =>
    unfold schedulerFires
    simp only [fireTime_recorded period now hp]
    refine List.Chain.cons (by omega) ?_
    exact ih (k + 1) (now + period + cycleTime k) (now + period) (by omega)

theorem cycleTimes_cons_cycle (t : Int) (r : Run) (es : List RunEvent) :
    cycleTimes (.cycle t r :: es) = t :: cycleTimes es := rfl

theorem cycleTimes_map_cycle (ts : List Int) (r : Run) :
    cycleTimes (ts.map (fun t => RunEvent.cycle t r)) = ts := by
  induction ts with
  | nil => rfl
  | cons t ts ih => rw [List.map_cons, cycleTimes_cons_cycle, ih]

theorem cycleTimes_run {R : Type} (rt : Runtime R) (fuel : Nat)
    (hc : rt.ConfigLoggerOk = true) (ha : rt.AgentLoggerOk = true)
    (hret : (doBuildAndSend rt.world rt.BuildData rt.configuration).termination = .returned)
    (hp : 0 < jobPeriod rt.configuration) (ht : rt.TimerOk = true) :
    cycleTimes (run rt fuel) =
      0 :: rt.Fires (jobPeriod rt.configuration) (rt.CycleTime 0) fuel := by
  rw [run_loggers_ok rt fuel hc ha, hret, RunEvery_positive _ hp]
  simp only [ht, Bool.not_true, Bool.false_eq_true, if_false]
  rw [cycleTimes_cons_cycle, cycleTimes_map_cycle]

theorem two_cycles_of_firesOnStart {R : Type} (rt : Runtime R) (fuel : Nat)
    (hc : rt.ConfigLoggerOk = true) (ha : rt.AgentLoggerOk = true)
    (hret : (doBuildAndSend rt.world rt.BuildData rt.configuration).termination = .returned)
    (hp : 0 < jobPeriod rt.configuration) (ht : rt.TimerOk = true)
    (hstart : firesOnStart rt fuel) (hshort : (rt.CycleTime 0 : Int) < jobPeriod rt.configuration) :
    2 ≤ (cyclesInFirstPeriod rt (run rt fuel)).length := by
  unfold cyclesInFirstPeriod
  rw [cycleTimes_run rt fuel hc ha hret hp ht]
  unfold firesOnStart at hstart
  cases hf : rt.Fires (jobPeriod rt.configuration) (rt.CycleTime 0) fuel with
  | nil => rw [hf] at hstart; cases hstart
  | cons t later =>
    rw [hf, List.head?_cons, Option.some.injEq] at hstart
    subst hstart
    simp [List.filter_cons, hp, hshort]

theorem specFires_head (cycleTime : Nat → Nat) (period now : Int) (fuel : Nat) :
    (specFires cycleTime period now (fuel + 1)).head? = some now := rfl

/-- Claim C12, as amended: when the loggers initialise, the call of `doBuildAndSend` at
startup returns, the period is positive and the scheduler starts, the cycle runs
immediately at startup, at time 0 and so before any period elapses, by the call that
`run` makes itself before it registers the job; the fires of the job by the scheduler
come after it and in addition to it. So whenever the job fires on `Start` with no wait
and the call at startup took less than one period, at least two cycles start before one
period has elapsed, not exactly one. -/
theorem run_startup_cycles {R : Type} (rt : Runtime R) (fuel : Nat)
    (hc : rt.ConfigLoggerOk = true) (ha : rt.AgentLoggerOk = true)
    (hret : (doBuildAndSend rt.world rt.BuildData rt.configuration).termination = .returned)
    (hp : 0 < jobPeriod rt.configuration) (ht : rt.TimerOk = true) :
    cycleTimes (run rt fuel) =
      0 :: rt.Fires (jobPeriod rt.configuration) (rt.CycleTime 0) fuel ∧
    (cyclesInFirstPeriod rt (run rt fuel)).head? = some 0 ∧
    (firesOnStart rt fuel → (rt.CycleTime 0 : Int) < jobPeriod rt.configuration →
      2 ≤ (cyclesInFirstPeriod rt (run rt fuel)).length) := by
  refine ⟨cycleTimes_run rt fuel hc ha hret hp ht, ?_,
    two_cycles_of_firesOnStart rt fuel hc ha hret hp ht⟩
  unfold cyclesInFirstPeriod
  rw [cycleTimes_run rt fuel hc ha hret hp ht]
  simp [List.filter_cons, hp]

/-- Witness of `run_startup_cycles`: a period of one hour, cycles of five seconds and the
scheduler of the spec, which fires the job on `Start`. -/
theorem run_startup_cycles_witness :
    0 < jobPeriod (exampleRuntime 1).configuration ∧
    firesOnStart (exampleRuntime 1) 3 ∧
    cycleTimes (run (exampleRuntime 1) 3) = [0, 5000000000, 3610000000000, 7215000000000] ∧
    2 ≤ (cyclesInFirstPeriod (exampleRuntime 1) (run (exampleRuntime 1) 3)).length :=
  ⟨by decide, rfl,
    (run_startup_cycles (exampleRuntime 1) 3 rfl rfl (by decide) (by decide) rfl).1.trans
      (by decide),
    (run_startup_cycles (exampleRuntime 1) 3 rfl rfl (by decide) (by decide) rfl).2.2 rfl
      (by decide)⟩

/-- Claim C12 fails as stated, whatever the scheduler: with a period of 24 hours and a
startup call of five seconds, no scheduler makes both halves of the claim true, that the
job fires on `Start` with no wait and that exactly one cycle starts before one period has
elapsed; the call that `run` makes itself is already one cycle. -/
theorem run_startup_not_exactly_once :
    ¬ ∃ fires : Int → Int → Nat → List Int,
      firesOnStart { exampleRuntime 24 with Fires := fires } 1 ∧
      (cyclesInFirstPeriod { exampleRuntime 24 with Fires := fires }
        (run { exampleRuntime 24 with Fires := fires } 1)).length = 1 := by
  rintro ⟨fires, hstart, hone⟩
  have hret : (doBuildAndSend (exampleRuntime 24).world (exampleRuntime 24).BuildData
      (exampleRuntime 24).configuration).termination = .returned := by decide
  have hp : 0 < jobPeriod (exampleRuntime 24).configuration := by decide
  have hshort : ((exampleRuntime 24).CycleTime 0 : Int) <
      jobPeriod (exampleRuntime 24).configuration := by decide
  have h2 := two_cycles_of_firesOnStart { exampleRuntime 24 with Fires := fires } 1 rfl rfl
    hret hp rfl hstart hshort
  omega

/-! ## `Filesystems`: a conversion failure -/

/-- Claim C13, as amended: a numeric conversion failure in `Filesystems` stops the whole
parse: for every input whose lines each fit the scanner buffer and have at least seven
tokens, if some line has a size, used space or available space token that does not
convert, `Filesystems` returns an error and the nil list, so that no record of any
line is produced. -/
theorem Filesystems_error_stops_all (cmdOutput : GoString) (hfit : linesFit cmdOutput)
    (h7 : ∀ l ∈ inputLines cmdOutput, 7 ≤ (Fields l).length)
    (hbad : ∃ l ∈ inputLines cmdOutput, numericTokensConvert l = false) :
    ∃ e, Filesystems cmdOutput = some ⟨none, some e⟩ := by
  unfold Filesystems
  rw [scanLines_eq_inputLines cmdOutput hfit]
  rcases FilesystemsLoop_total (inputLines cmdOutput) [] h7 with ⟨hall, _⟩ | ⟨_, e, hres⟩
  · obtain ⟨l, hl, hb⟩ := hbad
    rw [hall l hl] at hb
    exact absurd hb (by decide)
  · exact ⟨e, hres⟩

/-- Witness of `Filesystems_error_stops_all`: a line with a bad size before a good line. -/
theorem Filesystems_error_stops_all_witness :
    linesFit "/dev/sdb1 ext4 1x 5 5 50% /srv\n/dev/sdc1 ext4 8 4 4 50% /mnt".toList ∧
    ∃ e, Filesystems "/dev/sdb1 ext4 1x 5 5 50% /srv\n/dev/sdc1 ext4 8 4 4 50% /mnt".toList =
      some ⟨none, some e⟩ :=
  ⟨by decide,
    Filesystems_error_stops_all "/dev/sdb1 ext4 1x 5 5 50% /srv\n/dev/sdc1 ext4 8 4 4 50% /mnt".toList
      (by decide) (by decide) ⟨"/dev/sdb1 ext4 1x 5 5 50% /srv".toList, by decide, by decide⟩⟩

/-- Claim C13 fails as stated: of three lines exactly one, the second, has a token that
does not convert; the first and the third are well formed, and `Filesystems` returns
the nil list with the error, not their records. -/
theorem Filesystems_good_lines_lost :
    (inputLines goodBadGood).map wellFormedLine = [true, false, true] ∧
    Filesystems goodBadGood = some ⟨none, some ⟨"10x".toList⟩⟩ := by
  decide

/-! ## `Host`: unknown keys and the order of the lines -/

theorem valueFor_none_of_keyOf_ne (k line : GoString) (h : keyOf line ≠ some k) :
    valueFor k line = none := by
  unfold valueFor
  unfold keyOf at h
  cases hs : splitKeyValue line with
  | none => rfl
  | some kv =>
    rw [hs] at h
    have hne : ¬ kv.1 = k := fun e => h (by simp [e])
    simp [hne]

theorem keyOf_of_valueFor (k line v : GoString) (h : valueFor k line = some v) :
    keyOf line = some k := by
  by_cases hk : keyOf line = some k
  · exact hk
  · rw [valueFor_none_of_keyOf_ne k line hk] at h
    cases h

theorem sendDataStart_no_client {Doc : Type} (w : World Doc) (data : Doc)
    (configuration : Configuration) :
    (sendDataStart w data configuration).filterMap clientOf = [] := by
  unfold sendDataStart writeHostDataOnTmpFile
  rw [List.filterMap_append]
  cases configuration.Verbose
  · rfl
  · dsimp only
    simp only [if_true]
    split
    · split <;> rfl
    · rfl

theorem clientsUsed_valid {Doc : Type} (w : World Doc) (data : Doc) (configuration : Configuration)
    (hurl : w.URLValid (deliveryURL configuration) = true) :
    clientsUsed (sendData w data configuration) = [deliveryClient configuration] := by
  rw [sendData_valid w data configuration hurl]
  unfold clientsUsed
  cases w.Do (deliveryClient configuration) (deliveryRequest w data configuration) with
  | error err =>
    simp only [List.filterMap_append, sendDataStart_no_client]
    rfl
  | ok resp =>
    simp only [List.filterMap_append, sendDataStart_no_client]
    rfl

theorem clientsUsed_invalid {Doc : Type} (w : World Doc) (data : Doc)
    (configuration : Configuration) (hurl : w.URLValid (deliveryURL configuration) = false) :
    clientsUsed (sendData w data configuration) = [] := by
  rw [sendData_invalid w data configuration hurl]
  unfold clientsUsed
  exact sendDataStart_no_client w data configuration

theorem deliveryClient_skips_iff (configuration : Configuration) :
    (deliveryClient configuration).InsecureSkipVerify = true ↔
      configuration.EnableServerValidation = false := by
  unfold deliveryClient
  cases configuration.EnableServerValidation <;> simp

/-- Claim C15: every client with which `sendData` issues a request skips the validation
of the peer certificate if and only if the configuration has `EnableServerValidation`
false (with server validation enabled, the transport of the client is left as it is, and
validates); and when a request can be built for the delivery URL there is exactly one
such client. -/
theorem sendData_transport {Doc : Type} (w : World Doc) (data : Doc)
    (configuration : Configuration) :
    (∀ c ∈ clientsUsed (sendData w data configuration),
      (c.InsecureSkipVerify = true ↔ configuration.EnableServerValidation = false)) ∧
    (w.URLValid (deliveryURL configuration) = true →
      ∃ c, clientsUsed (sendData w data configuration) = [c] ∧
        (c.InsecureSkipVerify = true ↔ configuration.EnableServerValidation = false)) := by
  constructor
  · intro c hc
    cases hurl : w.URLValid (deliveryURL configuration) with
    | true =>
      rw [clientsUsed_valid w data configuration hurl, List.mem_singleton] at hc
      rw [hc]
      exact deliveryClient_skips_iff configuration
    | false =>
      rw [clientsUsed_invalid w data configuration hurl] at hc
      cases hc
  · intro hurl
    exact ⟨deliveryClient configuration, clientsUsed_valid w data configuration hurl,
      deliveryClient_skips_iff configuration⟩

/-- Witness of `sendData_transport`: server validation disabled. -/
theorem sendData_transport_witness :
    (exampleWorld 200).URLValid
      (deliveryURL { exampleConfiguration "https://ercole" with EnableServerValidation := false })
      = true ∧
    ∃ c, clientsUsed (sendData (exampleWorld 200) ()
        { exampleConfiguration "https://ercole" with EnableServerValidation := false }) = [c] ∧
      (c.InsecureSkipVerify = true ↔
        ({ exampleConfiguration "https://ercole" with EnableServerValidation := false } :
          Configuration).EnableServerValidation = false) :=
  ⟨by decide,
    (sendData_transport (exampleWorld 200) ()
      { exampleConfiguration "https://ercole" with EnableServerValidation := false }).2
      (by decide)⟩

theorem writeHostDataOnTmpFile_labelled {Doc : Type} (w : World Doc) (data : Doc) :
    (writeHostDataOnTmpFile w data).all eventLabelled = true := by
  unfold writeHostDataOnTmpFile
  dsimp only
  split
  · split <;> rfl
  · rfl

theorem sendDataStart_labelled {Doc : Type} (w : World Doc) (data : Doc)
    (configuration : Configuration) :
    (sendDataStart w data configuration).all eventLabelled = true := by
  unfold sendDataStart
  rw [List.all_append]
  cases configuration.Verbose
  · rfl
  · simp only [if_true, writeHostDataOnTmpFile_labelled]
    rfl

theorem sendData_labelled {Doc : Type} (w : World Doc) (data : Doc)
    (configuration : Configuration) :
    (sendData w data configuration).events.all eventLabelled = true := by
  cases hurl : w.URLValid (deliveryURL configuration) with
  | false =>
    rw [sendData_invalid w data configuration hurl]
    exact sendDataStart_labelled w data configuration
  | true =>
    rw [sendData_valid w data configuration hurl]
    cases w.Do (deliveryClient configuration) (deliveryRequest w data configuration) with
    | error err =>
      simp only [List.all_append, sendDataStart_labelled]
      rfl
    | ok resp =>
      simp only [List.all_append, sendDataStart_labelled]
      rfl

theorem sendDataStart_validation_irrelevant {Doc : Type} (w : World Doc) (data : Doc)
    (configuration : Configuration) (validation : Bool) :
    sendDataStart w data { configuration with EnableServerValidation := validation } =
      sendDataStart w data configuration := rfl

theorem logEntries_httpDo (start rest : List Event) (c1 c2 : Client) (req : Request)
    (t : Termination) :
    logEntries ⟨start ++ .httpDo c1 req :: rest, t⟩ =
      logEntries ⟨start ++ .httpDo c2 req :: rest, t⟩ := by
  unfold logEntries
  simp only [List.filterMap_append]
  rfl

/-- Claim C16, as amended: `sendData` emits no log entry for the trust downgrade. Every
entry it logs, whatever the configuration, starts with one of the fixed texts of
`sendData` and of the diagnostic copy (`Sending data...`, `Hostdata: %v`, the three
messages about the diagnostic file, `Error sending data: `, `Response status: `,
`Sending result: `), none of which is about certificate validation; and when the network
answers the same with either client, the log with validation disabled is the log with
validation enabled. -/
theorem sendData_downgrade_silent {Doc : Type} (w : World Doc) (data : Doc)
    (configuration : Configuration) :
    (∀ entry ∈ logEntries (sendData w data configuration),
      ∃ label ∈ sendDataLabels, ∃ rest, entry.2 = label :: rest) ∧
    ((∀ c1 c2 req, w.Do c1 req = w.Do c2 req) →
      logEntries (sendData w data { configuration with EnableServerValidation := false }) =
        logEntries (sendData w data { configuration with EnableServerValidation := true })) := by
  constructor
  · intro entry hentry
    unfold logEntries at hentry
    obtain ⟨e, he, hlog⟩ := List.mem_filterMap.1 hentry
    have hall := List.all_eq_true.1 (sendData_labelled w data configuration) e he
    unfold eventLabelled at hall
    rw [hlog] at hall
    unfold labelled at hall
    cases hargs : entry.2 with
    | nil => simp [hargs] at hall
    | cons label rest =>
      simp only [hargs, decide_eq_true_eq] at hall
      exact ⟨label, hall, rest, rfl⟩
  · intro hdo
    cases hurl : w.URLValid (deliveryURL configuration) with
    | false =>
      rw [sendData_invalid w data { configuration with EnableServerValidation := false } hurl,
        sendData_invalid w data { configuration with EnableServerValidation := true } hurl]
      rfl
    | true =>
      rw [sendData_valid w data { configuration with EnableServerValidation := false } hurl,
        sendData_valid w data { configuration with EnableServerValidation := true } hurl]
      have hreq : deliveryRequest w data { configuration with EnableServerValidation := false } =
          deliveryRequest w data { configuration with EnableServerValidation := true } := rfl
      rw [hreq, hdo (deliveryClient { configuration with EnableServerValidation := false })
        (deliveryClient { configuration with EnableServerValidation := true })]
      cases w.Do (deliveryClient { configuration with EnableServerValidation := true })
          (deliveryRequest w data { configuration with EnableServerValidation := true }) with
      | error err => exact logEntries_httpDo _ _ _ _ _ _
      | ok resp => exact logEntries_httpDo _ _ _ _ _ _

/-- Witness of `sendData_downgrade_silent`: the example world answers the same with either
client. -/
theorem sendData_downgrade_silent_witness :
    (∀ c1 c2 req, (exampleWorld 200).Do c1 req = (exampleWorld 200).Do c2 req) ∧
    logEntries (sendData (exampleWorld 200) ()
        { exampleConfiguration "https://ercole" with EnableServerValidation := false }) =
      logEntries (sendData (exampleWorld 200) ()
        { exampleConfiguration "https://ercole" with EnableServerValidation := true }) :=
  ⟨fun _ _ _ => rfl,
    (sendData_downgrade_silent (exampleWorld 200) () (exampleConfiguration "https://ercole")).2
      (fun _ _ _ => rfl)⟩

/-- Claim C16 fails as stated: with the validation of the server certificate disabled by
configuration, the request goes out with a client that skips it, and `sendData` logs
these four entries, none of which records it. -/
theorem sendData_downgrade_not_logged :
    exampleNoValidation.EnableServerValidation = false ∧
    clientsUsed (sendData (exampleWorld 200) () exampleNoValidation) =
      [{ InsecureSkipVerify := true }] ∧
    logEntries (sendData (exampleWorld 200) () exampleNoValidation) =
      [(.Info, ["Sending data...".toList]),
        (.Debug, ["Hostdata: %v".toList, "\x7b\x7d".toList]),
        (.Info, ["Response status: ".toList, "status".toList]),
        (.Info, ["Sending result: ".toList, "SUCCESS".toList])] := by
  decide

/-- Claim C17: the document that `doBuildAndSend` hands to `sendData` is the document
returned by the build step with `AgentVersion` set to the version of the agent,
`SchemaVersion` set to 1 and `Tags` set to the empty, non-nil list; every other field is
as the build step returned it. -/
theorem doBuildAndSend_stamps {R : Type} (w : World (model.HostData R))
    (BuildData : Configuration → model.HostData R) (configuration : Configuration) :
    doBuildAndSend w BuildData configuration =
      sendData w (doBuildAndSendData BuildData configuration) configuration ∧
    doBuildAndSendData BuildData configuration =
      { AgentVersion := version, SchemaVersion := 1, Tags := some [],
        Rest := (BuildData configuration).Rest } ∧
    version = "latest".toList :=
  ⟨rfl, rfl, rfl⟩

theorem sendDataStart_no_diagnostic {Doc : Type} (w : World Doc) (data : Doc)
    (configuration : Configuration) (h : configuration.Verbose = false) :
    (sendDataStart w data configuration).filterMap diagnosticOf = [] := by
  unfold sendDataStart
  rw [h]
  rfl

theorem delivery_valid {Doc : Type} (w : World Doc) (data : Doc) (configuration : Configuration)
    (hurl : w.URLValid (deliveryURL configuration) = true) :
    requestsIssued (sendData w data configuration) = [deliveryRequest w data configuration] ∧
    loggedOutcomes (sendData w data configuration) =
      [match w.Do (deliveryClient configuration) (deliveryRequest w data configuration) with
        | .error _ => "FAILED".toList
        | .ok resp => if resp.StatusCode = 200 then "SUCCESS".toList else "FAILED".toList] ∧
    (sendData w data configuration).termination = .returned := by
  rw [sendData_valid w data configuration hurl]
  unfold requestsIssued loggedOutcomes
  cases w.Do (deliveryClient configuration) (deliveryRequest w data configuration) with
  | error err =>
    dsimp only
    refine ⟨?_, ?_, rfl⟩
    · rw [List.filterMap_append, sendDataStart_no_request]
      rfl
    · rw [List.filterMap_append, sendDataStart_no_outcome]
      rfl
  | ok resp =>
    dsimp only
    refine ⟨?_, ?_, rfl⟩
    · rw [List.filterMap_append, sendDataStart_no_request]
      rfl
    · rw [List.filterMap_append, sendDataStart_no_outcome]
      rfl

theorem delivery_invalid {Doc : Type} (w : World Doc) (data : Doc) (configuration : Configuration)
    (hurl : w.URLValid (deliveryURL configuration) = false) :
    requestsIssued (sendData w data configuration) = [] ∧
    loggedOutcomes (sendData w data configuration) = [] ∧
    (sendData w data configuration).termination = .panicked := by
  rw [sendData_invalid w data configuration hurl]
  exact ⟨sendDataStart_no_request w data configuration,
    sendDataStart_no_outcome w data configuration, rfl⟩

theorem diagnosticWrites_not_verbose {Doc : Type} (w : World Doc) (data : Doc)
    (configuration : Configuration) (h : configuration.Verbose = false) :
    diagnosticWrites (sendData w data configuration) = [] := by
  unfold diagnosticWrites
  cases hurl : w.URLValid (deliveryURL configuration) with
  | false =>
    rw [sendData_invalid w data configuration hurl]
    exact sendDataStart_no_diagnostic w data configuration h
  | true =>
    rw [sendData_valid w data configuration hurl]
    cases w.Do (deliveryClient configuration) (deliveryRequest w data configuration) with
    | error err =>
      simp only [List.filterMap_append, sendDataStart_no_diagnostic w data configuration h]
      rfl
    | ok resp =>
      simp only [List.filterMap_append, sendDataStart_no_diagnostic w data configuration h]
      rfl

/-- Claim C18: the diagnostic copy has no effect on the delivery. For every document and
configuration, the requests that `sendData` issues (so the body it sends), the outcome it
logs and the way it ends are the same with verbose mode off or on, and in worlds that
differ only in the file system, the clock and the indented encoder, so whether creating
and writing the diagnostic file succeed or fail; and with verbose mode off `sendData`
makes no attempt to create or write the file. -/
theorem diagnostic_copy_no_effect {Doc : Type} (w1 w2 : World Doc) (data : Doc)
    (configuration : Configuration) (verbose : Bool) (hsame : sameDelivery w1 w2) :
    requestsIssued (sendData w2 data { configuration with Verbose := verbose }) =
      requestsIssued (sendData w1 data configuration) ∧
    loggedOutcomes (sendData w2 data { configuration with Verbose := verbose }) =
      loggedOutcomes (sendData w1 data configuration) ∧
    (sendData w2 data { configuration with Verbose := verbose }).termination =
      (sendData w1 data configuration).termination ∧
    (configuration.Verbose = false → diagnosticWrites (sendData w1 data configuration) = []) := by
  obtain ⟨hm, hu, hd⟩ := hsame
  have hreq : deliveryRequest w2 data { configuration with Verbose := verbose } =
      deliveryRequest w1 data configuration := by
    unfold deliveryRequest
    rw [hm]
    rfl
  have hclient : deliveryClient { configuration with Verbose := verbose } =
      deliveryClient configuration := rfl
  have hurl2 : w2.URLValid (deliveryURL { configuration with Verbose := verbose }) =
      w1.URLValid (deliveryURL configuration) := by
    rw [hu]
    rfl
  refine ⟨?_, ?_, ?_, diagnosticWrites_not_verbose w1 data configuration⟩ <;>
    cases hurl : w1.URLValid (deliveryURL configuration) with
    | false =>
      have h1 := delivery_invalid w1 data configuration hurl
      have h2 := delivery_invalid w2 data { configuration with Verbose := verbose }
        (hurl2.trans hurl)
      simp only [h1, h2]
    | true =>
      have h1 := delivery_valid w1 data configuration hurl
      have h2 := delivery_valid w2 data { configuration with Verbose := verbose }
        (hurl2.trans hurl)
      simp only [h1, h2, hreq, hclient, hd]

/-- Witness of `diagnostic_copy_no_effect`: verbose mode off, against verbose mode on in a
world where the diagnostic file cannot be created. -/
theorem diagnostic_copy_no_effect_witness :
    sameDelivery (exampleWorld 200) (exampleWorldNoFile 200) ∧
    (exampleConfiguration "http://ercole").Verbose = false ∧
    diagnosticWrites (sendData (exampleWorldNoFile 200) ()
      { exampleConfiguration "http://ercole" with Verbose := true }) ≠ [] ∧
    requestsIssued (sendData (exampleWorldNoFile 200) ()
        { exampleConfiguration "http://ercole" with Verbose := true }) =
      requestsIssued (sendData (exampleWorld 200) () (exampleConfiguration "http://ercole")) ∧
    loggedOutcomes (sendData (exampleWorldNoFile 200) ()
        { exampleConfiguration "http://ercole" with Verbose := true }) =
      loggedOutcomes (sendData (exampleWorld 200) () (exampleConfiguration "http://ercole")) ∧
    diagnosticWrites (sendData (exampleWorld 200) () (exampleConfiguration "http://ercole")) = [] :=
  have h := diagnostic_copy_no_effect (exampleWorld 200) (exampleWorldNoFile 200) ()
    (exampleConfiguration "http://ercole") true ⟨rfl, rfl, rfl⟩
  ⟨⟨rfl, rfl, rfl⟩, rfl, by decide, h.1, h.2.1, h.2.2.2 rfl⟩

/-! ## `Filesystems`: tokens after the seventh -/

theorem fieldsFrom_append_space (l cur extra : GoString) (c : Char) (hc : isSpace c = true) :
    fieldsFrom cur (l ++ c :: extra) = fieldsFrom cur l ++ fieldsFrom [] extra := by
  induction l generalizing cur with
  | nil =>
    simp only [List.nil_append, fieldsFrom, hc, if_true]
    cases cur <;> simp
  | cons d ds ih =>
    rw [List.cons_append, fieldsFrom, fieldsFrom]
    by_cases hd : isSpace d = true
    · simp only [hd, if_true]
      cases cur <;> simp [ih]
    · simp only [hd]
      exact ih (d :: cur)

theorem Fields_append_space (l extra : GoString) :
    Fields (l ++ ' ' :: extra) = Fields l ++ Fields extra :=
  fieldsFrom_append_space l [] extra ' ' (by decide)

theorem parseFilesystemLine_first_seven (l1 l2 : GoString) (more : List GoString)
    (h7 : 7 ≤ (Fields l1).length) (h : Fields l2 = Fields l1 ++ more) :
    parseFilesystemLine l2 = parseFilesystemLine l1 := by
  rcases hf : Fields l1 with _ | ⟨t1, _ | ⟨t2, _ | ⟨t3, _ | ⟨t4, _ | ⟨t5, _ | ⟨t6, _ | ⟨t7, rest⟩⟩⟩⟩⟩⟩⟩ <;>
    rw [hf] at h7 <;> simp at h7
  rw [hf] at h
  simp only [parseFilesystemLine, NewIter, Iter.next, hf, h, List.cons_append]

theorem parseFilesystemLine_extended (l1 l2 : GoString) (h : extendedLine l1 l2) :
    parseFilesystemLine l2 = parseFilesystemLine l1 := by
  rcases h with rfl | ⟨hwf, extra, rfl⟩
  · rfl
  · have h7 : 7 ≤ (Fields l1).length := by
      unfold wellFormedLine at hwf
      simp only [Bool.and_eq_true, decide_eq_true_eq] at hwf
      exact hwf.1.1.1
    exact parseFilesystemLine_first_seven l1 _ (Fields extra) h7 (Fields_append_space l1 extra)

theorem FilesystemsLoop_extended (lines1 lines2 : List GoString) (acc : List model.Filesystem)
    (h : List.Forall₂ extendedLine lines1 lines2) :
    FilesystemsLoop lines2 acc = FilesystemsLoop lines1 acc := by
  induction h generalizing acc with
  | nil => rfl
  | cons hl _ ih =>
    rw [FilesystemsLoop, FilesystemsLoop, parseFilesystemLine_extended _ _ hl]
    split
    · rfl
    · rfl
    · exact ih _

theorem letters_scan_long (n : Nat) (suffix : GoString) (hnl : '\n' ∉ suffix)
    (h : MaxScanTokenSize ≤ n + byteLen suffix) :
    scanLines (List.replicate n 'a' ++ suffix) = [] := by
  apply scanLines_long_single _ (letters_append_no_newline n suffix hnl)
  rw [byteLen_append, byteLen_replicate_a]
  exact h

theorem letters_scan_fit (n : Nat) (suffix : GoString) (hnl : '\n' ∉ suffix)
    (hne : suffix ≠ []) (hcr : suffix.getLast? ≠ some '\r')
    (h : n + byteLen suffix < MaxScanTokenSize) :
    scanLines (List.replicate n 'a' ++ suffix) = [List.replicate n 'a' ++ suffix] := by
  have hfit : fitsBuffer (List.replicate n 'a' ++ suffix) = true := by
    unfold fitsBuffer
    rw [byteLen_append, byteLen_replicate_a]
    exact decide_eq_true h
  unfold scanLines
  rw [rawLines_single _ (letters_append_no_newline n suffix hnl)
    (List.append_ne_nil_of_right_ne_nil _ hne)]
  simp only [List.takeWhile_cons, hfit, if_true, List.takeWhile_nil, List.map_cons, List.map_nil]
  rw [dropCR_append _ _ hne hcr]

theorem boundaryLine_wellFormed : wellFormedLine boundaryLine = true := by
  have hf : Fields boundaryLine =
      List.replicate 65508 'a' :: Fields "ext4 1024 512 512 50% /mnt".toList :=
    Fields_letters_then_space 65508 (by omega) _
  have hr : Fields "ext4 1024 512 512 50% /mnt".toList =
      ["ext4".toList, "1024".toList, "512".toList, "512".toList, "50%".toList, "/mnt".toList] := by
    decide
  unfold wellFormedLine token
  rw [hf, hr]
  decide

/-- Claim C19, as amended: `Filesystems` reads only the first seven tokens of a line, as
long as the lines fit the scanner buffer. For two inputs whose lines all fit the buffer
and correspond one to one, in order, each line of the second being the line of the first
or, when that is well formed, that line with further tokens appended after a space,
`Filesystems` returns the same result; and when every line of the first input is well
formed, this result is the list of the records of the lines of the first input. -/
theorem Filesystems_first_seven_tokens (in1 in2 : GoString)
    (hfit1 : linesFit in1) (hfit2 : linesFit in2)
    (h : List.Forall₂ extendedLine (inputLines in1) (inputLines in2)) :
    Filesystems in2 = Filesystems in1 ∧
    ((∀ l ∈ inputLines in1, wellFormedLine l = true) →
      Filesystems in2 = some ⟨some ((inputLines in1).map lineRecord), none⟩) := by
  have heq : Filesystems in2 = Filesystems in1 := by
    unfold Filesystems
    rw [scanLines_eq_inputLines in1 hfit1, scanLines_eq_inputLines in2 hfit2]
    exact FilesystemsLoop_extended _ _ [] h
  refine ⟨heq, ?_⟩
  intro hwf
  rw [heq]
  unfold Filesystems
  rw [scanLines_eq_inputLines in1 hfit1, FilesystemsLoop_wellFormed _ _ hwf, List.nil_append]

/-- Witness of `Filesystems_first_seven_tokens`: a mount point with a space in it is
recorded as its first word only. -/
theorem Filesystems_first_seven_tokens_witness :
    linesFit "/dev/sdb1 ext4 10 5 5 50% /mnt/my".toList ∧
    linesFit "/dev/sdb1 ext4 10 5 5 50% /mnt/my disk".toList ∧
    List.Forall₂ extendedLine (inputLines "/dev/sdb1 ext4 10 5 5 50% /mnt/my".toList)
      (inputLines "/dev/sdb1 ext4 10 5 5 50% /mnt/my disk".toList) ∧
    Filesystems "/dev/sdb1 ext4 10 5 5 50% /mnt/my disk".toList =
      Filesystems "/dev/sdb1 ext4 10 5 5 50% /mnt/my".toList ∧
    Filesystems "/dev/sdb1 ext4 10 5 5 50% /mnt/my disk".toList =
      some ⟨some [{ Filesystem := "/dev/sdb1".toList, FsType := "ext4".toList, Size := 10,
                    UsedSpace := 5, AvailableSpace := 5, MountedOn := "/mnt/my".toList }],
            none⟩ := by
  have hext : List.Forall₂ extendedLine (inputLines "/dev/sdb1 ext4 10 5 5 50% /mnt/my".toList)
      (inputLines "/dev/sdb1 ext4 10 5 5 50% /mnt/my disk".toList) := by
    rw [show inputLines "/dev/sdb1 ext4 10 5 5 50% /mnt/my".toList =
        ["/dev/sdb1 ext4 10 5 5 50% /mnt/my".toList] from by decide,
      show inputLines "/dev/sdb1 ext4 10 5 5 50% /mnt/my disk".toList =
        ["/dev/sdb1 ext4 10 5 5 50% /mnt/my disk".toList] from by decide]
    exact List.Forall₂.cons (Or.inr ⟨by decide, "disk".toList, by decide⟩) List.Forall₂.nil
  have h := Filesystems_first_seven_tokens "/dev/sdb1 ext4 10 5 5 50% /mnt/my".toList
    "/dev/sdb1 ext4 10 5 5 50% /mnt/my disk".toList (by decide) (by decide) hext
  exact ⟨by decide, by decide, hext, h.1, (h.2 (by decide)).trans (by decide)⟩

/-- Claim C19 fails as stated: the well-formed line `boundaryLine`, of 65535 bytes, gives
its record, and the same line with the token `x` appended no longer fits the scanner
buffer and gives no record. -/
theorem Filesystems_extra_token_drops_record :
    wellFormedLine boundaryLine = true ∧
    boundaryLineExtended = boundaryLine ++ ' ' :: "x".toList ∧
    Filesystems boundaryLine = some ⟨some [lineRecord boundaryLine], none⟩ ∧
    Filesystems boundaryLineExtended = some ⟨some [], none⟩ := by
  refine ⟨boundaryLine_wellFormed, rfl, ?_, ?_⟩
  · have hscan : scanLines boundaryLine = [boundaryLine] :=
      letters_scan_fit 65508 _ (by decide) (by decide) (by decide) (by decide)
    unfold Filesystems
    rw [hscan, FilesystemsLoop_wellFormed [boundaryLine] []
      (by intro l hl; rw [List.mem_singleton] at hl; rw [hl]; exact boundaryLine_wellFormed)]
    rfl
  · have hscan : scanLines boundaryLineExtended = [] := by
      unfold boundaryLineExtended boundaryLine
      rw [List.append_assoc]
      exact letters_scan_long 65508 _ (by decide) (by decide)
    unfold Filesystems
    rw [hscan]
    rfl

end Ercole
